import Mathlib

/-!
Shallow embedding of the gorilix actor runtime (Go) for specification
checking.  Pure/stateful Go functions are translated into Lean functions
with explicit state passing; `time.Now()` and the jitter produced by
`rand.Float64()` are passed in as explicit parameters; Go `int64`
arithmetic that can overflow (the backoff computation on
`time.Duration`) is modelled with an explicit two-complement wrap.

Sources embedded here:
  - supervisor/strategy.go   (circuit breaker, strategy, backoff)
  - supervisor/supervisor.go (DefaultSupervisor)
  - actor/actor.go           (DefaultActor stop flag, ActorRefImpl)
  - system/system.go         (SpawnSupervisor, NamedRegistry)
  - the genserver package    (GenServer processMessage / Stop)
-/

namespace Gorilix

/-- Errors of the library boundary (actor/errors.go, supervisor errors,
system errors), plus the dynamic `fmt.Errorf` failures that the embedded
code paths can produce. -/
inductive GoErr where
  | actorStopped
  | actorNotFound
  | invalidActorID
  | mailboxFull
  | supervisorStopped
  | tooManyRestarts
  | invalidStrategy
  | circuitBreakerOpen
  | systemStopped
  | nameAlreadyRegistered
  | actorAlreadyNamed
  | createFailed
  | castToSupervisorFailed
deriving DecidableEq, Repr

/-! ### Association-list model of Go maps

Go maps are key-unique; we model them as association lists where
`aset` replaces in place when the key is present and appends otherwise,
so key lists stay duplicate-free.  `aerase` models `delete`. -/

/-- Lookup in a Go map. -/
def alookup {α : Type} : List (String × α) → String → Option α
  | [], _ => none
  | p :: m, k => if p.1 = k then some p.2 else alookup m k

/-- Assignment `m[k] = v` in a Go map: replace if present, insert
otherwise.  The lists built by these operations are key-unique, so this
matches Go map semantics. -/
def aset {α : Type} : List (String × α) → String → α → List (String × α)
  | [], k, v => [(k, v)]
  | p :: m, k, v => if p.1 = k then (k, v) :: m else p :: aset m k v

/-- Deletion `delete(m, k)` in a Go map. -/
def aerase {α : Type} (m : List (String × α)) (k : String) :
    List (String × α) :=
  m.filter (fun p => ¬ p.1 = k)

/-- Key list of a Go map model. -/
def keysOf {α : Type} (m : List (String × α)) : List String :=
  m.map Prod.fst

/-- Removal of the first occurrence of `id` from `childOrder`, translated
from the `for i, childID := range s.childOrder` loop with `break` in
supervisor.go. -/
def removeFirst : List String → String → List String
  | [], _ => []
  | x :: xs, i => if x = i then xs else x :: removeFirst xs i

/-- Two-complement wrap of Go `int64` arithmetic. -/
def wrap64 (x : Int) : Int := (x + 2 ^ 63) % 2 ^ 64 - 2 ^ 63

/-! ### Circuit breaker (supervisor/strategy.go)

Time is modelled as an integer number of nanoseconds passed explicitly
to every operation that calls `time.Now()`.  The Go zero `time.Time{}`
checked by `IsZero()` is modelled by `Option Int` (`none` = zero). -/

/-- CircuitBreakerState constants of strategy.go. -/
inductive CBState where
  | closed
  | open_
  | halfOpen
deriving DecidableEq, Repr

/-- DefaultCircuitBreaker struct of strategy.go. -/
structure CircuitBreaker where
  state : CBState
  failures : Int
  tripThreshold : Int
  failureWindow : Int
  resetTimeout : Int
  lastFailure : Option Int
  lastStateChange : Int
  consecutiveSuccess : Int
  successThreshold : Int
deriving DecidableEq, Repr

/-- NewCircuitBreaker of strategy.go (`now` models `time.Now()`). -/
def newCircuitBreaker (tripThreshold failureWindow resetTimeout
    successThreshold now : Int) : CircuitBreaker :=
  { state := .closed
    failures := 0
    tripThreshold := tripThreshold
    failureWindow := failureWindow
    resetTimeout := resetTimeout
    lastFailure := none
    lastStateChange := now
    consecutiveSuccess := 0
    successThreshold := successThreshold }

/-- DefaultCircuitBreaker.GetState: lazily moves Open to HalfOpen once
the reset timeout has elapsed, returning the (possibly updated) state. -/
def CircuitBreaker.getState (cb : CircuitBreaker) (now : Int) :
    CBState × CircuitBreaker :=
  if cb.state = .open_ ∧ now - cb.lastStateChange > cb.resetTimeout then
    (.halfOpen, { cb with state := .halfOpen, lastStateChange := now })
  else
    (cb.state, cb)

/-- DefaultCircuitBreaker.RecordFailure: windowed failure counting and
the Closed→Open / HalfOpen→Open transitions.  Returns the `tripped`
boolean of the source. -/
def CircuitBreaker.recordFailure (cb : CircuitBreaker) (now : Int) :
    Bool × CircuitBreaker :=
  let failures :=
    match cb.lastFailure with
    | some lf => if now - lf > cb.failureWindow then 0 else cb.failures
    | none => cb.failures
  let cb := { cb with
    failures := failures + 1
    lastFailure := some now
    consecutiveSuccess := 0 }
  if cb.state = .closed ∧ cb.failures ≥ cb.tripThreshold then
    (true, { cb with state := .open_, lastStateChange := now })
  else if cb.state = .halfOpen then
    (false, { cb with state := .open_, lastStateChange := now })
  else
    (false, cb)

/-- DefaultCircuitBreaker.Reset. -/
def CircuitBreaker.reset (cb : CircuitBreaker) (now : Int) : CircuitBreaker :=
  { cb with
    state := .closed
    failures := 0
    lastStateChange := now
    consecutiveSuccess := 0 }

/-- DefaultCircuitBreaker.RecordSuccess. -/
def CircuitBreaker.recordSuccess (cb : CircuitBreaker) (now : Int) :
    CircuitBreaker :=
  if cb.state = .halfOpen then
    if cb.consecutiveSuccess + 1 ≥ cb.successThreshold then
      cb.reset now
    else
      { cb with consecutiveSuccess := cb.consecutiveSuccess + 1 }
  else
    cb

/-- DefaultCircuitBreaker.ShouldAllow: true in Closed and HalfOpen,
false in Open, after the lazy GetState transition. -/
def CircuitBreaker.shouldAllow (cb : CircuitBreaker) (now : Int) :
    Bool × CircuitBreaker :=
  let p := cb.getState now
  match p.1 with
  | .closed => (true, p.2)
  | .open_ => (false, p.2)
  | .halfOpen => (true, p.2)

/-- Events a client can apply to a circuit breaker, each carrying the
current time of the call. -/
inductive CBEvent where
  | fail (now : Int)
  | success (now : Int)
  | observe (now : Int)
  | resetEv (now : Int)
deriving DecidableEq, Repr

/-- Single-event transition of the circuit breaker. -/
def CircuitBreaker.step (cb : CircuitBreaker) : CBEvent → CircuitBreaker
  | .fail now => (cb.recordFailure now).2
  | .success now => cb.recordSuccess now
  | .observe now => (cb.getState now).2
  | .resetEv now => cb.reset now

/-- Run of a sequence of circuit-breaker events. -/
def runCB (cb : CircuitBreaker) : List CBEvent → CircuitBreaker
  | [] => cb
  | e :: es => runCB (cb.step e) es

/-- Holds when, along the whole event sequence, the windowed failure
counter stays strictly below the trip threshold after every step. -/
def CircuitBreaker.failuresBounded (cb : CircuitBreaker) :
    List CBEvent → Bool
  | [] => true
  | e :: es =>
    ((cb.step e).failures < cb.tripThreshold) &&
      (cb.step e).failuresBounded es

/-! ### Strategy (supervisor/strategy.go) -/

/-- RestartStrategy constants of strategy.go. -/
inductive RestartStrategy where
  | oneForOne
  | oneForAll
  | restForOne
deriving DecidableEq, Repr

/-- BackoffType constants of strategy.go. -/
inductive BackoffType where
  | noBackoff
  | linearBackoff
  | exponentialBackoff
  | jitteredExponentialBackoff
deriving DecidableEq, Repr

/-- CircuitBreakerOptions struct of strategy.go. -/
structure CircuitBreakerOptions where
  enabled : Bool
  tripThreshold : Int
  failureWindow : Int
  resetTimeout : Int
  successThreshold : Int
deriving DecidableEq, Repr

/-- StrategyOptions struct of strategy.go.  The `JitterFactor` float
field is not carried: the jitter noise it scales is produced by
`rand.Float64()` and is modelled as an explicit integer noise parameter
of `calculateBackoff`. -/
structure StrategyOptions where
  backoffType : BackoffType
  baseBackoff : Int
  maxBackoff : Int
  terminateOnMaxRestarts : Bool
  circuitBreakerOptions : Option CircuitBreakerOptions
deriving DecidableEq, Repr

/-- DefaultStrategyOptions of strategy.go (durations in nanoseconds). -/
def defaultStrategyOptions : StrategyOptions :=
  { backoffType := .noBackoff
    baseBackoff := 100000000
    maxBackoff := 60000000000
    terminateOnMaxRestarts := true
    circuitBreakerOptions := some
      { enabled := false
        tripThreshold := 5
        failureWindow := 60000000000
        resetTimeout := 5000000000
        successThreshold := 2 } }

/-- DefaultStrategy struct of strategy.go. -/
structure Strategy where
  strategyType : RestartStrategy
  maxRestarts : Int
  timeInterval : Int
  backoffStrategy : BackoffType
  baseBackoff : Int
  maxBackoff : Int
  terminateOnMaxRestarts : Bool
  circuitBreaker : CircuitBreaker
deriving DecidableEq, Repr

/-- NewStrategyWithOptions of strategy.go: installs the permissive
fallback breaker (9999, 24h, 1ms, 1) when circuit-breaker options are
absent or not enabled. -/
def newStrategyWithOptions (strategyType : RestartStrategy)
    (maxRestarts timeInterval : Int) (options : StrategyOptions)
    (now : Int) : Strategy :=
  let cb :=
    match options.circuitBreakerOptions with
    | some o =>
      if o.enabled then
        newCircuitBreaker o.tripThreshold o.failureWindow o.resetTimeout
          o.successThreshold now
      else
        newCircuitBreaker 9999 86400000000000 1000000 1 now
    | none => newCircuitBreaker 9999 86400000000000 1000000 1 now
  { strategyType := strategyType
    maxRestarts := maxRestarts
    timeInterval := timeInterval
    backoffStrategy := options.backoffType
    baseBackoff := options.baseBackoff
    maxBackoff := options.maxBackoff
    terminateOnMaxRestarts := options.terminateOnMaxRestarts
    circuitBreaker := cb }

/-- NewStrategy of strategy.go. -/
def newStrategy (strategyType : RestartStrategy)
    (maxRestarts timeInterval now : Int) : Strategy :=
  newStrategyWithOptions strategyType maxRestarts timeInterval
    defaultStrategyOptions now

/-- Repeated `backoff *= 2` of the exponential loop, each Go `int64`
multiplication wrapping. -/
def doubleWrap : Int → Nat → Int
  | b, 0 => b
  | b, n + 1 => doubleWrap (wrap64 (b * 2)) n

/-- DefaultStrategy.CalculateBackoff.  `jitter` stands for the value
`time.Duration(float64(backoff) * jitterFactor * (rand.Float64()*2-1))`
of the jittered branch, an arbitrary `int64`. -/
def Strategy.calculateBackoff (s : Strategy) (restarts : Int)
    (jitter : Int) : Int :=
  if restarts ≤ 0 ∨ s.backoffStrategy = .noBackoff then 0
  else
    let backoff :=
      match s.backoffStrategy with
      | .linearBackoff => wrap64 (s.baseBackoff * restarts)
      | .exponentialBackoff => doubleWrap s.baseBackoff (restarts - 1).toNat
      | .jitteredExponentialBackoff =>
        let b := doubleWrap s.baseBackoff (restarts - 1).toNat
        let bj := wrap64 (b + jitter)
        if bj < 0 then 0 else bj
      | .noBackoff => 0
    match s.backoffStrategy with
    | .noBackoff => 0
    | _ => if backoff > s.maxBackoff then s.maxBackoff else backoff

/-- DefaultStrategy.HandleFailure: records a failure on the breaker,
then returns `[childID]` for OneForOne and the empty (nil) list for
OneForAll and RestForOne.  The error result is always nil. -/
def Strategy.handleFailure (s : Strategy) (childID : String) (now : Int) :
    (List String × Option GoErr) × Strategy :=
  let cb := (s.circuitBreaker.recordFailure now).2
  let s := { s with circuitBreaker := cb }
  match s.strategyType with
  | .oneForOne => (([childID], none), s)
  | .oneForAll => (([], none), s)
  | .restForOne => (([], none), s)

/-! ### Actor (actor/actor.go)

Only the pieces the claims need are modelled: the once-only `stopped`
flag, `Stop` idempotence, and `IsRunning`. -/

/-- Observable state of a DefaultActor: its id and the `stopped` flag. -/
structure ActorSt where
  id : String
  stopped : Bool
deriving DecidableEq, Repr

/-- NewActor: a freshly created actor is running. -/
def newActor (id : String) : ActorSt := { id := id, stopped := false }

/-- DefaultActor.Stop: returns nil immediately when already stopped,
otherwise sets the flag (the worker shutdown always succeeds) and
returns nil. -/
def defaultActorStop (a : ActorSt) : ActorSt × Option GoErr :=
  if a.stopped then (a, none)
  else ({ a with stopped := true }, none)

/-- DefaultActor.IsRunning. -/
def ActorSt.isRunning (a : ActorSt) : Bool := ¬ a.stopped

/-! ### Supervisor (supervisor/supervisor.go)

`childRefs` stores, per child id, the actor wrapped by the
`ActorRefImpl` that `AddChild` created (the ref has no state of its
own beyond the wrapped actor).  Operations that read the clock take
`now : Int`; the jitter oracle of the backoff takes `jitter : Int`. -/

/-- RestartType constants of supervisor.go. -/
inductive RestartType where
  | permanent
  | temporary
  | transient
deriving DecidableEq, Repr

/-- ChildSpec of supervisor.go.  `createOk` models whether the
`CreateFunc` factory succeeds; on success it produces a fresh running
actor with the spec's id. -/
structure ChildSpec where
  id : String
  createOk : Bool
  restartType : RestartType
deriving DecidableEq, Repr

/-- Invocation of a ChildSpec's CreateFunc. -/
def ChildSpec.create (spec : ChildSpec) : Option ActorSt :=
  if spec.createOk then some (newActor spec.id) else none

/-- SupervisorStatus constants of supervisor.go. -/
inductive SupStatus where
  | running
  | restarting
  | stopping
  | stopped
deriving DecidableEq, Repr

/-- DefaultSupervisor struct of supervisor.go (the embedded
DefaultActor is `selfActor`). -/
structure DefaultSupervisor where
  strategy : Strategy
  children : List (String × ActorSt)
  childRefs : List (String × ActorSt)
  childSpecs : List (String × ChildSpec)
  childOrder : List String
  restartHistory : List Int
  status : SupStatus
  lastFailure : Option GoErr
  selfActor : ActorSt
deriving DecidableEq, Repr

/-- NewSupervisor of supervisor.go. -/
def newSupervisor (id : String) (strategy : Strategy) : DefaultSupervisor :=
  { strategy := strategy
    children := []
    childRefs := []
    childSpecs := []
    childOrder := []
    restartHistory := []
    status := .running
    lastFailure := none
    selfActor := newActor id }

/-- DefaultSupervisor.AddChild: fails unless Running, fails on a
duplicate id in `children`, invokes the factory, then extends all three
maps and appends to `childOrder`.  Returns the new child ref. -/
def DefaultSupervisor.addChild (s : DefaultSupervisor) (spec : ChildSpec) :
    Except GoErr (ActorSt × DefaultSupervisor) :=
  if ¬ s.status = .running then .error .supervisorStopped
  else if (alookup s.children spec.id).isSome then .error .invalidActorID
  else
    match spec.create with
    | none => .error .createFailed
    | some child =>
      .ok (child,
        { s with
          children := aset s.children spec.id child
          childRefs := aset s.childRefs spec.id child
          childSpecs := aset s.childSpecs spec.id spec
          childOrder := s.childOrder ++ [spec.id] })

/-- DefaultSupervisor.RemoveChild: fails unless Running, fails when the
id is unknown, stops the child (always nil for DefaultActor.Stop) and
removes it from the three maps and from `childOrder`. -/
def DefaultSupervisor.removeChild (s : DefaultSupervisor) (id : String) :
    Except GoErr DefaultSupervisor :=
  if ¬ s.status = .running then .error .supervisorStopped
  else
    match alookup s.children id with
    | none => .error .actorNotFound
    | some _ =>
      .ok { s with
        children := aerase s.children id
        childRefs := aerase s.childRefs id
        childSpecs := aerase s.childSpecs id
        childOrder := removeFirst s.childOrder id }

/-- DefaultSupervisor.GetChild. -/
def DefaultSupervisor.getChild (s : DefaultSupervisor) (id : String) :
    Except GoErr ActorSt :=
  if ¬ s.status = .running then .error .supervisorStopped
  else
    match alookup s.childRefs id with
    | none => .error .actorNotFound
    | some ref => .ok ref

/-- DefaultSupervisor.shouldRestart. -/
def DefaultSupervisor.shouldRestart (s : DefaultSupervisor)
    (childID : String) (err : Option GoErr) : Bool :=
  match alookup s.childSpecs childID with
  | none => false
  | some spec =>
    match spec.restartType with
    | .permanent => true
    | .temporary => false
    | .transient => err.isSome

/-- Deletion of a non-restarted child: supervisor.go removes the id
from `children` and `childRefs` only. -/
def DefaultSupervisor.dropChild (s : DefaultSupervisor) (childID : String) :
    DefaultSupervisor :=
  { s with
    children := aerase s.children childID
    childRefs := aerase s.childRefs childID }

/-- One iteration of the restart loop of handleChildFailure: skip ids
without a spec, stop the current actor (mutating the object that both
maps alias), create a fresh actor, and on success replace the entries
in `children` and `childRefs`. -/
def DefaultSupervisor.restartOne (s : DefaultSupervisor) (id : String) :
    DefaultSupervisor :=
  match alookup s.childSpecs id with
  | none => s
  | some spec =>
    let s :=
      match alookup s.children id with
      | some c =>
        let stoppedChild := (defaultActorStop c).1
        { s with
          children := aset s.children id stoppedChild
          childRefs :=
            if (alookup s.childRefs id).isSome then
              aset s.childRefs id stoppedChild
            else s.childRefs }
      | none => s
    match spec.create with
    | none => s
    | some newChild =>
      { s with
        children := aset s.children id newChild
        childRefs := aset s.childRefs id newChild }

/-- Restart loop of handleChildFailure. -/
def DefaultSupervisor.restartChildren (s : DefaultSupervisor)
    (ids : List String) : DefaultSupervisor :=
  ids.foldl DefaultSupervisor.restartOne s

/-- Position of the failed child in `childOrder`, translated from the
`for i, id := range s.childOrder` search loop of handleChildFailure
(`none` models the `pos == -1` case). -/
def findPos : List String → String → Option Nat
  | [], _ => none
  | x :: xs, childID =>
    if x = childID then some 0 else (findPos xs childID).map (· + 1)

/-- Fallback of handleChildFailure when the strategy returned an empty
restart set: OneForOne restarts the failed child, OneForAll copies the
whole `childOrder`, RestForOne takes the suffix of `childOrder` from
the first position holding the failed id (empty when absent). -/
def fallbackRestartSet (stype : RestartStrategy) (childOrder : List String)
    (childID : String) (fromStrategy : List String) : List String :=
  if fromStrategy.length = 0 then
    match stype with
    | .oneForOne => [childID]
    | .oneForAll => childOrder
    | .restForOne =>
      match findPos childOrder childID with
      | some pos => childOrder.drop pos
      | none => []
  else fromStrategy

/-- Outcome of the max-restarts block of handleChildFailure. -/
inductive GateResult where
  | exit (res : Option GoErr) (s : DefaultSupervisor)
  | proceed (s : DefaultSupervisor)

/-- Max-restarts block of handleChildFailure: garbage-collects the
restart history against the time window, and on exhaustion either
transitions Stopping with TooManyRestarts (the asynchronous self-stop
appears as a later `stop` operation in a trace) or, with a positive
backoff, parks in Restarting (the delayed retry appears as later
`resume` and `fail` operations). -/
def maxRestartsGate (s : DefaultSupervisor) (now jitter : Int) : GateResult :=
  if s.strategy.maxRestarts > 0 then
    let timeWindow := s.strategy.timeInterval * 1000000000
    let cutoff := now - timeWindow
    let newHistory := s.restartHistory.filter (fun t => t > cutoff)
    let validRestarts : Int := newHistory.length
    let s := { s with restartHistory := newHistory }
    if validRestarts > s.strategy.maxRestarts then
      if s.strategy.terminateOnMaxRestarts then
        .exit (some .tooManyRestarts) { s with status := .stopping }
      else
        let backoffDuration := s.strategy.calculateBackoff validRestarts jitter
        if backoffDuration > 0 then
          .exit none { s with status := .restarting }
        else
          .proceed s
    else
      .proceed s
  else
    .proceed s

/-- DefaultSupervisor.handleChildFailure, the synchronous body of the
failure-notification handler. -/
def DefaultSupervisor.handleChildFailure (s : DefaultSupervisor)
    (childID : String) (err : Option GoErr) (now jitter : Int) :
    Option GoErr × DefaultSupervisor :=
  if s.status = .stopping ∨ s.status = .stopped then (none, s)
  else
    let s := { s with
      lastFailure := err
      restartHistory := s.restartHistory ++ [now] }
    match maxRestartsGate s now jitter with
    | .exit res s => (res, s)
    | .proceed s =>
      let allowPair := s.strategy.circuitBreaker.shouldAllow now
      let s := { s with
        strategy := { s.strategy with circuitBreaker := allowPair.2 } }
      if ¬ allowPair.1 then (some .circuitBreakerOpen, s)
      else if ¬ s.shouldRestart childID err then (none, s.dropChild childID)
      else
        let s := { s with status := .restarting }
        let hf := s.strategy.handleFailure childID now
        let s := { s with strategy := hf.2 }
        match hf.1.2 with
        | some e => (some e, { s with status := .running })
        | none =>
          let toRestart :=
            fallbackRestartSet s.strategy.strategyType s.childOrder childID
              hf.1.1
          let s := s.restartChildren toRestart
          let s := { s with
            strategy := { s.strategy with
              circuitBreaker := s.strategy.circuitBreaker.recordSuccess now } }
          (none, { s with status := .running })

/-- DefaultSupervisor.Stop: returns nil at once when Stopped; otherwise
sets Stopping, calls RemoveChild for every id of `childOrder` with the
error discarded (the state is kept unchanged when RemoveChild fails),
sets Stopped and stops the embedded actor. -/
def DefaultSupervisor.stopSup (s : DefaultSupervisor) :
    DefaultSupervisor × Option GoErr :=
  if s.status = .stopped then (s, none)
  else
    let s := { s with status := .stopping }
    let childIDs := s.childOrder
    let s := childIDs.foldl
      (fun acc id =>
        match acc.removeChild id with
        | .ok s' => s'
        | .error _ => acc) s
    let s := { s with status := .stopped }
    let selfPair := defaultActorStop s.selfActor
    ({ s with selfActor := selfPair.1 }, selfPair.2)

/-- Operations of a supervisor trace.  `resume` is the body of the
backoff goroutine setting the status back to Running; the delayed
re-notification it issues appears as a subsequent `fail`. -/
inductive SupOp where
  | add (spec : ChildSpec)
  | remove (id : String)
  | fail (childID : String) (err : Option GoErr) (now jitter : Int)
  | stop
  | resume
deriving DecidableEq, Repr

/-- Application of one trace operation (failed operations leave the
state unchanged, matching the discarded error results). -/
def applySupOp (s : DefaultSupervisor) : SupOp → DefaultSupervisor
  | .add spec =>
    match s.addChild spec with
    | .ok p => p.2
    | .error _ => s
  | .remove id =>
    match s.removeChild id with
    | .ok s' => s'
    | .error _ => s
  | .fail childID err now jitter =>
    (s.handleChildFailure childID err now jitter).2
  | .stop => (s.stopSup).1
  | .resume => { s with status := .running }

/-- Run of a supervisor trace. -/
def runSup (s : DefaultSupervisor) : List SupOp → DefaultSupervisor
  | [] => s
  | op :: ops => runSup (applySupOp s op) ops

/-! ### ActorSystem.SpawnSupervisor (system/system.go)

A Go interface type assertion `v.(T)` succeeds exactly when the method
set of the dynamic type of `v` contains every method of `T`.
`AddChild` always wraps its child in `actor.NewActorRef`, whose result
has dynamic type `*ActorRefImpl` with method set {Send, ID, IsRunning};
`supervisor.Supervisor` embeds `actor.Actor` and so requires
{Receive, Stop, ID, IsRunning, AddChild, RemoveChild, GetChild,
Strategy, Status}. -/

/-- Method names involved in the `supRef.(supervisor.Supervisor)`
assertion of SpawnSupervisor. -/
inductive GoMethod where
  | send
  | idM
  | isRunningM
  | receiveM
  | stopMethod
  | addChildM
  | removeChildM
  | getChildM
  | strategyM
  | statusM
deriving DecidableEq, Repr

/-- Method set of `*actor.ActorRefImpl` (actor/actor.go). -/
def actorRefImplMethods : List GoMethod := [.send, .idM, .isRunningM]

/-- Method set required by the `supervisor.Supervisor` interface
(supervisor.go), including the embedded `actor.Actor`. -/
def supervisorInterfaceMethods : List GoMethod :=
  [.receiveM, .stopMethod, .idM, .isRunningM, .addChildM, .removeChildM,
   .getChildM, .strategyM, .statusM]

/-- Go interface-satisfaction check: every required method is in the
dynamic type's method set. -/
def implementsAll (methods required : List GoMethod) : Bool :=
  required.all (fun m => methods.contains m)

/-- The `supRef.(supervisor.Supervisor)` type assertion of
SpawnSupervisor, applied to the `*ActorRefImpl` that AddChild returns:
yields the ref as a Supervisor handle when the method set suffices. -/
def castAddChildRefToSupervisor (ref : ActorSt) : Option ActorSt :=
  if implementsAll actorRefImplMethods supervisorInterfaceMethods then
    some ref
  else none

/-- State of an ActorSystem restricted to what SpawnSupervisor touches:
the running flag, the id registry, and the root supervisor. -/
structure SystemSt where
  running : Bool
  registry : List (String × ActorSt)
  rootSupervisor : DefaultSupervisor
deriving DecidableEq, Repr

/-- NewActorSystem of system.go (root supervisor: OneForOne, 10, 60). -/
def newActorSystem (now : Int) : SystemSt :=
  { running := true
    registry := []
    rootSupervisor :=
      newSupervisor "root" (newStrategy .oneForOne 10 60 now) }

/-- ActorSystem.SpawnSupervisor of system.go: checks the running flag
and id freshness, adds a Permanent child to the root supervisor (its
factory `NewSupervisor` always succeeds), records the returned ref in
the registry, and finally type-asserts that ref to
`supervisor.Supervisor`. -/
def SystemSt.spawnSupervisor (sys : SystemSt) (id : String) :
    Except GoErr (ActorSt × SystemSt) :=
  if ¬ sys.running then .error .systemStopped
  else if (alookup sys.registry id).isSome then .error .invalidActorID
  else
    let spec : ChildSpec :=
      { id := id, createOk := true, restartType := .permanent }
    match sys.rootSupervisor.addChild spec with
    | .error e => .error e
    | .ok (supRef, root') =>
      let sys := { sys with
        rootSupervisor := root'
        registry := aset sys.registry id supRef }
      match castAddChildRefToSupervisor supRef with
      | none => .error .castToSupervisorFailed
      | some sup => .ok (sup, sys)

/-! ### GenServer (genserver package)

The opaque `interface{}` server state is `Option σ` (`none` models the
Go nil).  Handlers are user hooks; `processMessage` dispatches on the
message kind, delivers the call reply best-effort, and commits the new
state only when the handler neither errored nor returned nil. -/

/-- Messages a GenServer dispatches on: CallMessage, CastMessage, and
anything else (routed to the info handler). -/
inductive GSMsg (μ : Type) where
  | call (payload : μ)
  | cast (payload : μ)
  | info (payload : μ)

/-- User hooks of a GenServer as stored in its Options.  Handler
results model the Go `(reply, newState, err)` triples; `none` is nil. -/
structure GSOptions (μ ρ σ : Type) where
  callHandler : Option (μ → Option σ → Option ρ × Option σ × Option GoErr)
  castHandler : Option (μ → Option σ → Option σ × Option GoErr)
  infoHandler : Option (μ → Option σ → Option σ × Option GoErr)
  hasTerminate : Bool

/-- GenServer state: the stored `state` value plus the pieces `Stop`
manipulates: the count of TerminateFunc invocations, whether
`terminateCh` has been closed, and the embedded DefaultActor. -/
structure GSState (σ : Type) where
  state : Option σ
  terminateCount : Nat
  terminateChClosed : Bool
  actorState : ActorSt

/-- GenServer.handleCall: the user handler, or `(nil, state, nil)`. -/
def gsHandleCall {μ ρ σ : Type} (opts : GSOptions μ ρ σ) (g : GSState σ)
    (payload : μ) : Option ρ × Option σ × Option GoErr :=
  match opts.callHandler with
  | some h => h payload g.state
  | none => (none, g.state, none)

/-- GenServer.handleCast: the user handler, or `(state, nil)`. -/
def gsHandleCast {μ ρ σ : Type} (opts : GSOptions μ ρ σ) (g : GSState σ)
    (payload : μ) : Option σ × Option GoErr :=
  match opts.castHandler with
  | some h => h payload g.state
  | none => (g.state, none)

/-- GenServer.handleInfo: the user handler, or `(state, nil)`. -/
def gsHandleInfo {μ ρ σ : Type} (opts : GSOptions μ ρ σ) (g : GSState σ)
    (payload : μ) : Option σ × Option GoErr :=
  match opts.infoHandler with
  | some h => h payload g.state
  | none => (g.state, none)

/-- Handler dispatch of GenServer.processMessage, producing the Go
`(reply, newState, err)` values before the commit step. -/
def gsDispatch {μ ρ σ : Type} (opts : GSOptions μ ρ σ) (g : GSState σ) :
    GSMsg μ → Option ρ × Option σ × Option GoErr
  | .call payload => gsHandleCall opts g payload
  | .cast payload =>
    let r := gsHandleCast opts g payload
    (none, r.1, r.2)
  | .info payload =>
    let r := gsHandleInfo opts g payload
    (none, r.1, r.2)

/-- GenServer.processMessage: dispatch, then return the error with the
state untouched, else replace the stored state only when the handler
returned a non-nil one. -/
def gsProcessMessage {μ ρ σ : Type} (opts : GSOptions μ ρ σ)
    (g : GSState σ) (msg : GSMsg μ) : GSState σ × Option GoErr :=
  let r := gsDispatch opts g msg
  match r.2.2 with
  | some e => (g, some e)
  | none =>
    match r.2.1 with
    | some v => ({ g with state := some v }, none)
    | none => (g, none)

/-- GenServer.Stop: invokes TerminateFunc (when set) with the current
state, closes `terminateCh`, and stops the embedded actor.  Closing an
already-closed Go channel panics; the returned flag reports that
panic, with the state as it was at the panic point. -/
def gsStop {σ : Type} (hasTerminate : Bool) (g : GSState σ) :
    GSState σ × Bool :=
  let g :=
    if hasTerminate then { g with terminateCount := g.terminateCount + 1 }
    else g
  if g.terminateChClosed then (g, true)
  else
    let g := { g with terminateChClosed := true }
    ({ g with actorState := (defaultActorStop g.actorState).1 }, false)

/-! ### NamedRegistry (system package) -/

/-- NamedRegistry struct: the name-to-ref map and the id-to-name map. -/
structure NamedRegistry where
  nameToActor : List (String × ActorSt)
  actorToName : List (String × String)
deriving DecidableEq, Repr

/-- NewNamedRegistry. -/
def newNamedRegistry : NamedRegistry :=
  { nameToActor := [], actorToName := [] }

/-- NamedRegistry.Register: fails when the name is taken or the actor
id already has a name; otherwise extends both maps. -/
def NamedRegistry.register (r : NamedRegistry) (name : String)
    (ref : ActorSt) : Except GoErr NamedRegistry :=
  if (alookup r.nameToActor name).isSome then .error .nameAlreadyRegistered
  else if (alookup r.actorToName ref.id).isSome then
    .error .actorAlreadyNamed
  else
    .ok { nameToActor := aset r.nameToActor name ref
          actorToName := aset r.actorToName ref.id name }

/-- NamedRegistry.Unregister: removes the name and, through the looked
up ref's id, the reverse entry. -/
def NamedRegistry.unregister (r : NamedRegistry) (name : String) :
    Bool × NamedRegistry :=
  match alookup r.nameToActor name with
  | none => (false, r)
  | some ref =>
    (true,
      { nameToActor := aerase r.nameToActor name
        actorToName := aerase r.actorToName ref.id })

/-- NamedRegistry.UnregisterActor: removes by actor id. -/
def NamedRegistry.unregisterActor (r : NamedRegistry) (actorID : String) :
    Bool × NamedRegistry :=
  match alookup r.actorToName actorID with
  | none => (false, r)
  | some name =>
    (true,
      { nameToActor := aerase r.nameToActor name
        actorToName := aerase r.actorToName actorID })

/-- NamedRegistry.Lookup. -/
def NamedRegistry.lookup (r : NamedRegistry) (name : String) :
    Option ActorSt :=
  alookup r.nameToActor name

/-- Operations of a registry trace. -/
inductive RegOp where
  | registerOp (name : String) (ref : ActorSt)
  | unregisterOp (name : String)
  | unregisterActorOp (actorID : String)
deriving DecidableEq, Repr

/-- Application of one registry operation (failed registrations leave
the registry unchanged). -/
def applyRegOp (r : NamedRegistry) : RegOp → NamedRegistry
  | .registerOp name ref =>
    match r.register name ref with
    | .ok r' => r'
    | .error _ => r
  | .unregisterOp name => (r.unregister name).2
  | .unregisterActorOp actorID => (r.unregisterActor actorID).2

/-- Run of a registry trace. -/
def runReg (r : NamedRegistry) : List RegOp → NamedRegistry
  | [] => r
  | op :: ops => runReg (applyRegOp r op) ops

/-- The name-to-id and id-to-name maps are mutually inverse. -/
def InverseMaps (r : NamedRegistry) : Prop :=
  (∀ n ref, alookup r.nameToActor n = some ref →
    alookup r.actorToName ref.id = some n) ∧
  (∀ i n, alookup r.actorToName i = some n →
    ∃ ref, alookup r.nameToActor n = some ref ∧ ref.id = i)

/-! ### Derived predicates used by the theorems -/

/-- Weak key-set relation between the four child structures: `children`
and `childRefs` share their key list, every child key has a spec, and
every spec key occurs in `childOrder`. -/
def WeakSupInv (s : DefaultSupervisor) : Prop :=
  keysOf s.children = keysOf s.childRefs ∧
  (∀ k, k ∈ keysOf s.children → k ∈ keysOf s.childSpecs) ∧
  (∀ k, k ∈ keysOf s.childSpecs → k ∈ s.childOrder)

/-- Full four-way key-set identity of the spec:
`dom(children) = dom(refs) = dom(specs) = set(child_order)`. -/
def FullSupInv (s : DefaultSupervisor) : Prop :=
  keysOf s.children = keysOf s.childRefs ∧
  keysOf s.children = keysOf s.childSpecs ∧
  keysOf s.childSpecs = s.childOrder ∧
  s.childOrder.Nodup

/-- Agreement of two supervisor states on the four child structures. -/
def MapsEq (t s : DefaultSupervisor) : Prop :=
  t.children = s.children ∧ t.childRefs = s.childRefs ∧
  t.childSpecs = s.childSpecs ∧ t.childOrder = s.childOrder

/-- Every registered child spec is Permanent. -/
def AllPermanent (s : DefaultSupervisor) : Prop :=
  ∀ p ∈ s.childSpecs, p.2.restartType = RestartType.permanent

/-- Holds when every child added along the trace is Permanent. -/
def PermanentOnly : List SupOp → Bool
  | [] => true
  | .add spec :: ops =>
    (spec.restartType = RestartType.permanent : Bool) && PermanentOnly ops
  | _ :: ops => PermanentOnly ops

/-- Modelled from the spec: the suffix of the ordered child list
starting at `child_id` (empty when the id is absent).  Used only to
compare the code's restart set against the spec's words. -/
def suffixFrom : List String → String → List String
  | [], _ => []
  | x :: xs, childID => if x = childID then x :: xs else suffixFrom xs childID

/-! ### Concrete fixtures for counterexamples and witnesses -/

/-- Strategy used by the concrete supervisor scenarios
(NewStrategy(OneForOne, 3, 60) at time 0). -/
def fixtureStrategy : Strategy := newStrategy .oneForOne 3 60 0

/-- Permanent child spec with id a. -/
def specA : ChildSpec := { id := "a", createOk := true, restartType := .permanent }

/-- Permanent child spec with id b. -/
def specB : ChildSpec := { id := "b", createOk := true, restartType := .permanent }

/-- Temporary child spec with id t. -/
def specT : ChildSpec := { id := "t", createOk := true, restartType := .temporary }

/-- Supervisor with two Permanent children a and b. -/
def supAB : DefaultSupervisor :=
  runSup (newSupervisor "sup" fixtureStrategy) [.add specA, .add specB]

/-- The supervisor `supAB` after its Stop. -/
def supABStopped : DefaultSupervisor := (supAB.stopSup).1

/-- Supervisor holding one Temporary child t that has just been
reported failed (the no-restart drop has run). -/
def supTDropped : DefaultSupervisor :=
  runSup (newSupervisor "sup2" fixtureStrategy)
    [.add specT, .fail "t" (some .actorStopped) 0 0]

/-- Linear-backoff strategy used by concrete backoff witnesses. -/
def witStrategyLinear : Strategy :=
  { strategyType := .oneForOne
    maxRestarts := 3
    timeInterval := 60
    backoffStrategy := .linearBackoff
    baseBackoff := 100
    maxBackoff := 1000
    terminateOnMaxRestarts := true
    circuitBreaker := newCircuitBreaker 9999 86400000000000 1000000 1 0 }

/-- RestForOne strategy used by concrete restart-set witnesses. -/
def witStrategyRestForOne : Strategy := newStrategy .restForOne 3 60 0

/-- OneForAll strategy used by the restart-set counterexample. -/
def witStrategyOneForAll : Strategy := newStrategy .oneForAll 3 60 0

/-- Supervisor with strategy OneForAll and children a, b. -/
def supOneForAll : DefaultSupervisor :=
  runSup (newSupervisor "s3" witStrategyOneForAll) [.add specA, .add specB]

/-- Circuit breaker sitting in the Open state since time 0 with a reset
timeout of 50. -/
def witOpenBreaker : CircuitBreaker :=
  { state := .open_
    failures := 3
    tripThreshold := 3
    failureWindow := 100
    resetTimeout := 50
    lastFailure := some 0
    lastStateChange := 0
    consecutiveSuccess := 0
    successThreshold := 2 }

/-- Fresh actor system used by the SpawnSupervisor scenario. -/
def witSystem : SystemSt := newActorSystem 0

/-- Fresh GenServer (state 0) used by the Stop scenario. -/
def witGenServer : GSState Nat :=
  { state := some 0
    terminateCount := 0
    terminateChClosed := false
    actorState := newActor "gs" }

/-- GenServer options whose cast handler returns a nil new state and
whose info handler returns a fresh non-nil state. -/
def witGSOptions : GSOptions Unit Unit Nat :=
  { callHandler := none
    castHandler := some (fun _ _ => (none, none))
    infoHandler := some (fun _ st => (st.map (· + 1), none))
    hasTerminate := true }

/-- Registry trace used by the inverse-maps witness. -/
def witRegOps : List RegOp :=
  [.registerOp "alice" (newActor "a1"),
   .registerOp "bob" (newActor "b1"),
   .unregisterOp "alice",
   .registerOp "carol" (newActor "c1"),
   .unregisterActorOp "b1"]

/-- Permanent-only supervisor trace used by the key-set witness. -/
def witPermOps : List SupOp :=
  [.add specA,
   .fail "a" (some .actorStopped) 5 0,
   .add specB,
   .remove "a",
   .stop]

/-! ### Lemmas on the Go-map model -/

theorem keysOf_nil {α : Type} : keysOf ([] : List (String × α)) = [] := rfl

theorem keysOf_cons {α : Type} (p : String × α) (m : List (String × α)) :
    keysOf (p :: m) = p.1 :: keysOf m := rfl

theorem alookup_aset_self {α : Type} (m : List (String × α)) (k : String)
    (v : α) : alookup (aset m k v) k = some v := by
  induction m with
  | nil => simp [aset, alookup]
  | cons p m ih =>
    by_cases h : p.1 = k
    · simp [aset, alookup, h]
    · simp [aset, alookup, h, ih]

theorem alookup_aset_ne {α : Type} (m : List (String × α)) (k k' : String)
    (v : α) (h : ¬ k' = k) : alookup (aset m k v) k' = alookup m k' := by
  have h' : ¬ k = k' := fun hh => h hh.symm
  induction m with
  | nil => simp [aset, alookup, h']
  | cons p m ih =>
    by_cases hp : p.1 = k
    · have hp' : ¬ p.1 = k' := by rw [hp]; exact h'
      simp [aset, alookup, hp, hp', h']
    · simp [aset, alookup, hp, ih]

theorem aerase_cons {α : Type} (p : String × α) (m : List (String × α))
    (k : String) :
    aerase (p :: m) k =
      if p.1 = k then aerase m k else p :: aerase m k := by
  by_cases h : p.1 = k <;> simp [aerase, List.filter_cons, h]

theorem alookup_aerase_self {α : Type} (m : List (String × α))
    (k : String) : alookup (aerase m k) k = none := by
  induction m with
  | nil => rfl
  | cons p m ih =>
    rw [aerase_cons]
    by_cases h : p.1 = k
    · rw [if_pos h]; exact ih
    · rw [if_neg h]
      simpa [alookup, h] using ih

theorem alookup_aerase_ne {α : Type} (m : List (String × α))
    (k k' : String) (h : ¬ k' = k) :
    alookup (aerase m k) k' = alookup m k' := by
  have h' : ¬ k = k' := fun hh => h hh.symm
  induction m with
  | nil => rfl
  | cons p m ih =>
    rw [aerase_cons]
    by_cases hp : p.1 = k
    · have hp' : ¬ p.1 = k' := by rw [hp]; exact h'
      rw [if_pos hp]
      simpa [alookup, hp'] using ih
    · rw [if_neg hp]
      simp [alookup, ih]

theorem alookup_isSome_iff {α : Type} (m : List (String × α))
    (k : String) : (alookup m k).isSome = true ↔ k ∈ keysOf m := by
  induction m with
  | nil => simp [alookup, keysOf_nil]
  | cons p m ih =>
    by_cases h : p.1 = k
    · simp [alookup, keysOf_cons, h]
    · have h' : ¬ k = p.1 := fun hh => h hh.symm
      simp [alookup, keysOf_cons, h, h', ih]

theorem alookup_eq_none_iff {α : Type} (m : List (String × α))
    (k : String) : alookup m k = none ↔ ¬ k ∈ keysOf m := by
  rw [← alookup_isSome_iff]
  cases alookup m k <;> simp

theorem keysOf_aset {α : Type} (m : List (String × α)) (k : String)
    (v : α) :
    keysOf (aset m k v) =
      if k ∈ keysOf m then keysOf m else keysOf m ++ [k] := by
  induction m with
  | nil => simp [aset, keysOf_nil, keysOf_cons]
  | cons p m ih =>
    by_cases h : p.1 = k
    · simp [aset, keysOf_cons, h]
    · have h' : ¬ k = p.1 := fun hh => h hh.symm
      by_cases hm : k ∈ keysOf m
      · simp [aset, keysOf_cons, h, h', hm, ih]
      · simp [aset, keysOf_cons, h, h', hm, ih]

theorem keysOf_aerase {α : Type} (m : List (String × α)) (k : String) :
    keysOf (aerase m k) = (keysOf m).filter (fun x => ¬ x = k) := by
  induction m with
  | nil => rfl
  | cons p m ih =>
    by_cases h : p.1 = k
    · simpa [aerase, keysOf_cons, List.filter_cons, h, decide_not] using ih
    · simpa [aerase, keysOf_cons, List.filter_cons, h, decide_not] using ih

theorem aerase_of_not_mem {α : Type} (m : List (String × α)) (k : String)
    (h : ¬ k ∈ keysOf m) : aerase m k = m := by
  induction m with
  | nil => rfl
  | cons p m ih =>
    have h1 : ¬ p.1 = k := by
      intro hh
      exact h (by rw [keysOf_cons, hh]; exact List.mem_cons_self k _)
    have h2 : ¬ k ∈ keysOf m := by
      intro hh
      exact h (by rw [keysOf_cons]; exact List.mem_cons_of_mem _ hh)
    rw [aerase_cons, if_neg h1, ih h2]

theorem mem_removeFirst_of_ne (l : List String) (i k : String)
    (h : ¬ k = i) : k ∈ removeFirst l i ↔ k ∈ l := by
  induction l with
  | nil => simp [removeFirst]
  | cons x xs ih =>
    by_cases hx : x = i
    · simp only [removeFirst, if_pos hx]
      constructor
      · intro hk
        exact List.mem_cons_of_mem _ hk
      · intro hk
        rcases List.mem_cons.mp hk with h1 | h1
        · exact absurd (h1.trans hx) h
        · exact h1
    · simp only [removeFirst, if_neg hx]
      simp [ih]

theorem removeFirst_eq_filter_of_nodup (l : List String) (i : String)
    (h : l.Nodup) : removeFirst l i = l.filter (fun x => ¬ x = i) := by
  induction l with
  | nil => rfl
  | cons x xs ih =>
    rcases List.nodup_cons.mp h with ⟨hx, hxs⟩
    by_cases hxi : x = i
    · have hfix : xs.filter (fun x => ¬ x = i) = xs := by
        apply List.filter_eq_self.mpr
        intro a ha
        have hai : ¬ a = i := by
          intro hai
          apply hx
          rw [hxi, ← hai]
          exact ha
        simp [hai]
      simp only [removeFirst, if_pos hxi]
      rw [List.filter_cons]
      simp only [hxi, decide_True, Bool.not_true, if_neg, decide_not]
      simpa [decide_not] using hfix.symm
    · simp only [removeFirst, if_neg hxi]
      rw [List.filter_cons]
      simp only [decide_not]
      simp [hxi, ih hxs]

/-! ### Lemmas on the backoff arithmetic -/

theorem wrap64_eq_self (x : Int) (h1 : -(2 ^ 63) ≤ x) (h2 : x < 2 ^ 63) :
    wrap64 x = x := by
  unfold wrap64
  have h3 : 0 ≤ x + 2 ^ 63 := by linarith
  have h4 : x + 2 ^ 63 < 2 ^ 64 := by
    have he : (2 : Int) ^ 64 = 2 ^ 63 + 2 ^ 63 := by norm_num
    linarith
  rw [Int.emod_eq_of_lt h3 h4]
  ring

theorem doubleWrap_eq (n : Nat) (b : Int) (hb : 0 ≤ b)
    (h : b * 2 ^ n < 2 ^ 63) : doubleWrap b n = b * 2 ^ n := by
  induction n generalizing b with
  | zero => simp [doubleWrap]
  | succ n ih =>
    have h2 : b * 2 ≤ b * 2 ^ (n + 1) := by
      apply mul_le_mul_of_nonneg_left _ hb
      calc (2 : Int) = 2 ^ 1 := by norm_num
        _ ≤ 2 ^ (n + 1) := by
          apply pow_le_pow_right₀ (by norm_num) (by omega)
    have hw : wrap64 (b * 2) = b * 2 := by
      apply wrap64_eq_self
      · have hb2 : (0 : Int) ≤ b * 2 := by positivity
        have : -(2 ^ 63 : Int) ≤ 0 := by norm_num
        linarith
      · exact lt_of_le_of_lt h2 h
    have heq : b * 2 * 2 ^ n = b * 2 ^ (n + 1) := by ring
    unfold doubleWrap
    rw [hw, ih (b * 2) (by positivity) (by rw [heq]; exact h), heq]

theorem clampMax_eq_min (a b : Int) : (if a > b then b else a) = min a b := by
  rcases le_or_lt a b with h | h
  · rw [if_neg (not_lt.mpr h), min_eq_left h]
  · rw [if_pos h, min_eq_right (le_of_lt h)]

theorem calculateBackoff_linear_eq (s : Strategy) (r jitter : Int)
    (hs : s.backoffStrategy = .linearBackoff) (hr : 0 < r)
    (hlo : -(2 ^ 63) ≤ s.baseBackoff * r)
    (hhi : s.baseBackoff * r < 2 ^ 63) :
    s.calculateBackoff r jitter = min (s.baseBackoff * r) s.maxBackoff := by
  unfold Strategy.calculateBackoff
  rw [if_neg (by simp [hs, not_le.mpr hr])]
  simp only [hs]
  rw [wrap64_eq_self _ hlo hhi, clampMax_eq_min]

theorem calculateBackoff_expo_eq (s : Strategy) (r jitter : Int)
    (hs : s.backoffStrategy = .exponentialBackoff) (hr : 0 < r)
    (hb : 0 ≤ s.baseBackoff)
    (hhi : s.baseBackoff * 2 ^ (r - 1).toNat < 2 ^ 63) :
    s.calculateBackoff r jitter =
      min (s.baseBackoff * 2 ^ (r - 1).toNat) s.maxBackoff := by
  unfold Strategy.calculateBackoff
  rw [if_neg (by simp [hs, not_le.mpr hr])]
  simp only [hs]
  rw [doubleWrap_eq _ _ hb hhi, clampMax_eq_min]

theorem calculateBackoff_jittered_bounds (s : Strategy) (r jitter : Int)
    (hs : s.backoffStrategy = .jitteredExponentialBackoff)
    (hmax : 0 ≤ s.maxBackoff) :
    0 ≤ s.calculateBackoff r jitter ∧
      s.calculateBackoff r jitter ≤ s.maxBackoff := by
  unfold Strategy.calculateBackoff
  by_cases hr : r ≤ 0
  · rw [if_pos (Or.inl hr)]
    exact ⟨le_refl 0, hmax⟩
  · rw [if_neg (by simp [hs, hr])]
    simp only [hs]
    set bj := wrap64 (doubleWrap s.baseBackoff (r - 1).toNat + jitter) with hbj
    by_cases hneg : bj < 0
    · rw [if_pos hneg]
      constructor
      · by_cases hc : (0 : Int) > s.maxBackoff
        · rw [if_pos hc]; exact hmax
        · rw [if_neg hc]
      · by_cases hc : (0 : Int) > s.maxBackoff
        · rw [if_pos hc]
        · rw [if_neg hc]; exact hmax
    · rw [if_neg hneg]
      by_cases hc : bj > s.maxBackoff
      · rw [if_pos hc]
        exact ⟨hmax, le_refl _⟩
      · rw [if_neg hc]
        exact ⟨not_lt.mp hneg, not_lt.mp hc⟩

theorem calculateBackoff_le_max (s : Strategy) (r jitter : Int)
    (hmax : 0 ≤ s.maxBackoff) :
    s.calculateBackoff r jitter ≤ s.maxBackoff := by
  unfold Strategy.calculateBackoff
  by_cases h0 : r ≤ 0 ∨ s.backoffStrategy = .noBackoff
  · rw [if_pos h0]; exact hmax
  · rw [if_neg h0]
    cases hbs : s.backoffStrategy with
    | noBackoff => exact hmax
    | linearBackoff =>
      simp only
      rw [clampMax_eq_min]
      exact min_le_right _ _
    | exponentialBackoff =>
      simp only
      rw [clampMax_eq_min]
      exact min_le_right _ _
    | jitteredExponentialBackoff =>
      simp only
      rw [clampMax_eq_min]
      exact min_le_right _ _

/-! ### Claim C7 -/

/-- C7: CalculateBackoff returns 0 when the attempt is 0 and for
backoff kind None; Linear yields base × attempt and Exponential yields
base × 2^(attempt−1), both clamped to max_delay and non-decreasing in
the attempt below the int64 overflow bound; JitteredExponential always
lands in [0, max_delay] whatever noise the jitter source produced; and
whenever max_delay is non-negative the result never exceeds it. -/
theorem claim_C7_calculate_backoff (s : Strategy) (r r2 j : Int) :
    (s.calculateBackoff 0 j = 0) ∧
    (s.backoffStrategy = .noBackoff → s.calculateBackoff r j = 0) ∧
    (s.backoffStrategy = .linearBackoff → 0 < r →
      -(2 ^ 63) ≤ s.baseBackoff * r → s.baseBackoff * r < 2 ^ 63 →
      s.calculateBackoff r j = min (s.baseBackoff * r) s.maxBackoff) ∧
    (s.backoffStrategy = .exponentialBackoff → 0 < r →
      0 ≤ s.baseBackoff → s.baseBackoff * 2 ^ (r - 1).toNat < 2 ^ 63 →
      s.calculateBackoff r j =
        min (s.baseBackoff * 2 ^ (r - 1).toNat) s.maxBackoff) ∧
    (s.backoffStrategy = .linearBackoff → 0 ≤ s.baseBackoff → 0 < r →
      r ≤ r2 → s.baseBackoff * r2 < 2 ^ 63 →
      s.calculateBackoff r j ≤ s.calculateBackoff r2 j) ∧
    (s.backoffStrategy = .exponentialBackoff → 0 ≤ s.baseBackoff →
      0 < r → r ≤ r2 → s.baseBackoff * 2 ^ (r2 - 1).toNat < 2 ^ 63 →
      s.calculateBackoff r j ≤ s.calculateBackoff r2 j) ∧
    (s.backoffStrategy = .jitteredExponentialBackoff → 0 ≤ s.maxBackoff →
      0 ≤ s.calculateBackoff r j ∧ s.calculateBackoff r j ≤ s.maxBackoff) ∧
    (0 ≤ s.maxBackoff → s.calculateBackoff r j ≤ s.maxBackoff) := by
  refine ⟨?_, ?_, ?_, ?_, ?_, ?_, ?_, ?_⟩
  · unfold Strategy.calculateBackoff
    rw [if_pos (Or.inl (le_refl 0))]
  · intro hs
    unfold Strategy.calculateBackoff
    rw [if_pos (Or.inr hs)]
  · exact fun hs hr hlo hhi => calculateBackoff_linear_eq s r j hs hr hlo hhi
  · exact fun hs hr hb hhi => calculateBackoff_expo_eq s r j hs hr hb hhi
  · intro hs hb hr hr2 hhi2
    have hr2pos : 0 < r2 := lt_of_lt_of_le hr hr2
    have hv1 : 0 ≤ s.baseBackoff * r := mul_nonneg hb (le_of_lt hr)
    have hv12 : s.baseBackoff * r ≤ s.baseBackoff * r2 :=
      mul_le_mul_of_nonneg_left hr2 hb
    have hlo1 : -(2 ^ 63 : Int) ≤ s.baseBackoff * r := by
      have : -(2 ^ 63 : Int) ≤ 0 := by norm_num
      linarith
    have hlo2 : -(2 ^ 63 : Int) ≤ s.baseBackoff * r2 := by
      have : -(2 ^ 63 : Int) ≤ 0 := by norm_num
      have hv2 : 0 ≤ s.baseBackoff * r2 := mul_nonneg hb (le_of_lt hr2pos)
      linarith
    have hhi1 : s.baseBackoff * r < 2 ^ 63 := lt_of_le_of_lt hv12 hhi2
    rw [calculateBackoff_linear_eq s r j hs hr hlo1 hhi1,
      calculateBackoff_linear_eq s r2 j hs hr2pos hlo2 hhi2]
    exact min_le_min hv12 (le_refl _)
  · intro hs hb hr hr2 hhi2
    have hr2pos : 0 < r2 := lt_of_lt_of_le hr hr2
    have hn : (r - 1).toNat ≤ (r2 - 1).toNat :=
      Int.toNat_le_toNat (by omega)
    have hp : (2 : Int) ^ (r - 1).toNat ≤ 2 ^ (r2 - 1).toNat :=
      pow_le_pow_right₀ (by norm_num) hn
    have hv12 : s.baseBackoff * 2 ^ (r - 1).toNat ≤
        s.baseBackoff * 2 ^ (r2 - 1).toNat :=
      mul_le_mul_of_nonneg_left hp hb
    have hhi1 : s.baseBackoff * 2 ^ (r - 1).toNat < 2 ^ 63 :=
      lt_of_le_of_lt hv12 hhi2
    rw [calculateBackoff_expo_eq s r j hs hr hb hhi1,
      calculateBackoff_expo_eq s r2 j hs hr2pos hb hhi2]
    exact min_le_min hv12 (le_refl _)
  · exact fun hs hmax => calculateBackoff_jittered_bounds s r j hs hmax
  · exact fun hmax => calculateBackoff_le_max s r j hmax

/-- Witness for C7: the linear fixture (base 100, max 1000) at attempt
3 evaluates to base × attempt clamped, with every hypothesis discharged
at the concrete input. -/
theorem claim_C7_witness :
    witStrategyLinear.calculateBackoff 3 0 =
      min (witStrategyLinear.baseBackoff * 3) witStrategyLinear.maxBackoff :=
  (claim_C7_calculate_backoff witStrategyLinear 3 4 0).2.2.1
    (by decide) (by decide) (by decide) (by decide)

/-! ### Lemmas on the circuit breaker -/

theorem getState_of_closed (cb : CircuitBreaker) (now : Int)
    (h : cb.state = .closed) : cb.getState now = (.closed, cb) := by
  unfold CircuitBreaker.getState
  rw [if_neg (by simp [h]), h]

theorem getState_of_halfOpen (cb : CircuitBreaker) (now : Int)
    (h : cb.state = .halfOpen) : cb.getState now = (.halfOpen, cb) := by
  unfold CircuitBreaker.getState
  rw [if_neg (by simp [h]), h]

theorem getState_open_not_elapsed (cb : CircuitBreaker) (now : Int)
    (h : cb.state = .open_)
    (ht : ¬ now - cb.lastStateChange > cb.resetTimeout) :
    cb.getState now = (.open_, cb) := by
  unfold CircuitBreaker.getState
  rw [if_neg (by simp [ht]), h]

theorem getState_open_elapsed (cb : CircuitBreaker) (now : Int)
    (h : cb.state = .open_)
    (ht : now - cb.lastStateChange > cb.resetTimeout) :
    (cb.getState now).1 = .halfOpen := by
  unfold CircuitBreaker.getState
  rw [if_pos ⟨h, ht⟩]

theorem shouldAllow_of_closed (cb : CircuitBreaker) (now : Int)
    (h : cb.state = .closed) : (cb.shouldAllow now).1 = true := by
  unfold CircuitBreaker.shouldAllow
  rw [getState_of_closed cb now h]

theorem shouldAllow_of_halfOpen (cb : CircuitBreaker) (now : Int)
    (h : cb.state = .halfOpen) : (cb.shouldAllow now).1 = true := by
  unfold CircuitBreaker.shouldAllow
  rw [getState_of_halfOpen cb now h]

theorem shouldAllow_open_not_elapsed (cb : CircuitBreaker) (now : Int)
    (h : cb.state = .open_)
    (ht : ¬ now - cb.lastStateChange > cb.resetTimeout) :
    (cb.shouldAllow now).1 = false := by
  unfold CircuitBreaker.shouldAllow
  rw [getState_open_not_elapsed cb now h ht]

theorem shouldAllow_open_elapsed (cb : CircuitBreaker) (now : Int)
    (h : cb.state = .open_)
    (ht : now - cb.lastStateChange > cb.resetTimeout) :
    (cb.shouldAllow now).1 = true := by
  unfold CircuitBreaker.shouldAllow
  unfold CircuitBreaker.getState
  rw [if_pos ⟨h, ht⟩]

theorem recordFailure_stays_closed (cb : CircuitBreaker) (now : Int)
    (h : cb.state = .closed)
    (hlt : ((cb.recordFailure now).2).failures < cb.tripThreshold) :
    ((cb.recordFailure now).2).state = .closed := by
  obtain ⟨st, f, tt, fw, rt, lf, lsc, cs, sth⟩ := cb
  simp only at h
  subst h
  unfold CircuitBreaker.recordFailure at hlt ⊢
  rcases lf with _ | lfv
  · by_cases hge : tt ≤ f + 1
    · exfalso
      simp [hge] at hlt
      omega
    · simp [hge]
  · by_cases hw : now - lfv > fw
    · by_cases hge : tt ≤ 1
      · exfalso
        simp [hw, hge] at hlt
        omega
      · simp [hw, hge]
    · by_cases hge : tt ≤ f + 1
      · exfalso
        simp [hw, hge] at hlt
        omega
      · simp [hw, hge]

theorem step_stays_closed (cb : CircuitBreaker) (e : CBEvent)
    (h : cb.state = .closed)
    (hlt : (cb.step e).failures < cb.tripThreshold) :
    (cb.step e).state = .closed := by
  cases e with
  | fail now => exact recordFailure_stays_closed cb now h hlt
  | success now =>
    simp [CircuitBreaker.step, CircuitBreaker.recordSuccess, h]
  | observe now =>
    simp [CircuitBreaker.step, getState_of_closed cb now h, h]
  | resetEv now =>
    simp [CircuitBreaker.step, CircuitBreaker.reset]

theorem runCB_stays_closed (es : List CBEvent) :
    ∀ cb : CircuitBreaker, cb.state = .closed →
      cb.failuresBounded es = true → (runCB cb es).state = .closed := by
  induction es with
  | nil => intro cb h _; exact h
  | cons e es ih =>
    intro cb h hb
    have hb' : ((cb.step e).failures < cb.tripThreshold) ∧
        (cb.step e).failuresBounded es = true := by
      simpa [CircuitBreaker.failuresBounded] using hb
    exact ih (cb.step e) (step_stays_closed cb e h hb'.1) hb'.2

/-! ### Claim C6 -/

/-- C6: should_allow is false while the breaker is Open within the
reset timeout, true in Closed and HalfOpen, and once the reset timeout
has elapsed since the last state change the next observation finds the
breaker in HalfOpen and admits the operation. -/
theorem claim_C6_circuit_breaker_gate (cb : CircuitBreaker) (now : Int) :
    (cb.state = .open_ → ¬ now - cb.lastStateChange > cb.resetTimeout →
      (cb.shouldAllow now).1 = false) ∧
    ((cb.state = .closed ∨ cb.state = .halfOpen) →
      (cb.shouldAllow now).1 = true) ∧
    (cb.state = .open_ → now - cb.lastStateChange > cb.resetTimeout →
      (cb.getState now).1 = .halfOpen ∧ (cb.shouldAllow now).1 = true) := by
  refine ⟨?_, ?_, ?_⟩
  · exact fun h ht => shouldAllow_open_not_elapsed cb now h ht
  · intro h
    rcases h with h | h
    · exact shouldAllow_of_closed cb now h
    · exact shouldAllow_of_halfOpen cb now h
  · exact fun h ht =>
      ⟨getState_open_elapsed cb now h ht, shouldAllow_open_elapsed cb now h ht⟩

/-- Witness for C6: the Open fixture breaker denies at time 30 (before
the 50ns reset timeout), moves to HalfOpen and admits at time 60, and a
fresh Closed breaker admits. -/
theorem claim_C6_witness :
    (witOpenBreaker.shouldAllow 30).1 = false ∧
    ((witOpenBreaker.getState 60).1 = .halfOpen ∧
      (witOpenBreaker.shouldAllow 60).1 = true) ∧
    ((newCircuitBreaker 3 100 50 2 0).shouldAllow 10).1 = true :=
  ⟨(claim_C6_circuit_breaker_gate witOpenBreaker 30).1 rfl (by decide),
   (claim_C6_circuit_breaker_gate witOpenBreaker 60).2.2 rfl (by decide),
   (claim_C6_circuit_breaker_gate (newCircuitBreaker 3 100 50 2 0) 10).2.1
     (Or.inl rfl)⟩

/-! ### Claim C9 -/

/-- C9: a strategy created through NewStrategy, or through
NewStrategyWithOptions without enabled circuit-breaker options, carries
the permissive breaker (trip 9999, window 24h, reset 1ms, success 1),
and as long as the windowed failure counter of that breaker never
reaches 9999 the breaker stays Closed and should_allow keeps returning
true. -/
theorem claim_C9_default_breaker_permissive (stype : RestartStrategy)
    (mr ti now : Int) (opts : StrategyOptions) (es : List CBEvent) :
    ((newStrategy stype mr ti now).circuitBreaker =
      newCircuitBreaker 9999 86400000000000 1000000 1 now) ∧
    ((∀ o, opts.circuitBreakerOptions = some o → o.enabled = false) →
      (newStrategyWithOptions stype mr ti opts now).circuitBreaker =
        newCircuitBreaker 9999 86400000000000 1000000 1 now) ∧
    ((newCircuitBreaker 9999 86400000000000 1000000 1 now).failuresBounded
        es = true →
      ∀ t, ((runCB (newCircuitBreaker 9999 86400000000000 1000000 1 now)
        es).shouldAllow t).1 = true) := by
  refine ⟨rfl, ?_, ?_⟩
  · intro h
    rcases ho : opts.circuitBreakerOptions with _ | o
    · simp [newStrategyWithOptions, ho]
    · have he : o.enabled = false := h o ho
      simp [newStrategyWithOptions, ho, he]
  · intro hb t
    apply shouldAllow_of_closed
    exact runCB_stays_closed es _ rfl hb

/-- Witness for C9: two failures and a success on the permissive
breaker keep the counter below 9999, so the breaker still admits. -/
theorem claim_C9_witness :
    ((runCB (newCircuitBreaker 9999 86400000000000 1000000 1 0)
      [CBEvent.fail 1, CBEvent.fail 2, CBEvent.success 3]).shouldAllow
        4).1 = true :=
  (claim_C9_default_breaker_permissive .oneForOne 3 60 0
      defaultStrategyOptions
      [CBEvent.fail 1, CBEvent.fail 2, CBEvent.success 3]).2.2
    (by decide) 4

/-! ### Claim C10 -/

/-- C10: processMessage leaves the stored state untouched when the
handler returned a nil new state or an error, replaces it only with a
non-nil handler result, and hence never turns a non-nil state into nil. -/
theorem claim_C10_genserver_state_commit {μ ρ σ : Type}
    (opts : GSOptions μ ρ σ) (g : GSState σ) (msg : GSMsg μ) :
    ((gsDispatch opts g msg).2.1 = none →
      (gsDispatch opts g msg).2.2 = none →
      (gsProcessMessage opts g msg).1.state = g.state) ∧
    ((gsProcessMessage opts g msg).1.state = g.state ∨
      ∃ v, (gsDispatch opts g msg).2.1 = some v ∧
        (gsProcessMessage opts g msg).1.state = some v) ∧
    ((gsProcessMessage opts g msg).1.state = none → g.state = none) := by
  unfold gsProcessMessage
  rcases hds : gsDispatch opts g msg with ⟨rep, ns, er⟩
  rcases er with _ | e
  · rcases ns with _ | v
    · simp [hds]
    · simp [hds]
  · simp [hds]

/-- Witness for C10: a cast whose handler returns a nil state and no
error leaves the fixture server state unchanged. -/
theorem claim_C10_witness :
    (gsProcessMessage witGSOptions witGenServer (GSMsg.cast ())).1.state =
      witGenServer.state :=
  (claim_C10_genserver_state_commit witGSOptions witGenServer
    (GSMsg.cast ())).1 rfl rfl

/-! ### Claim C4 -/

/-- C4: evaluation at the failing input.  The first GenServer Stop runs
the terminate hook once and succeeds, but a second Stop runs the hook
again and panics on the double close of terminateCh, contradicting the
claimed idempotence; the embedded DefaultActor Stop alone is
idempotent. -/
theorem claim_C4_genserver_double_stop :
    (gsStop true witGenServer).2 = false ∧
    (gsStop true witGenServer).1.terminateCount = 1 ∧
    (gsStop true (gsStop true witGenServer).1).2 = true ∧
    (gsStop true (gsStop true witGenServer).1).1.terminateCount = 2 ∧
    (∀ a : ActorSt,
      defaultActorStop (defaultActorStop a).1 =
        ((defaultActorStop a).1, none)) := by
  refine ⟨rfl, rfl, rfl, rfl, ?_⟩
  intro a
  unfold defaultActorStop
  by_cases h : a.stopped
  · simp [h]
  · simp [h]

/-! ### Lemmas on the named registry -/

theorem inverse_empty : InverseMaps newNamedRegistry := by
  constructor
  · intro n ref h
    simp [newNamedRegistry, alookup] at h
  · intro i n h
    simp [newNamedRegistry, alookup] at h

theorem register_inverse (r : NamedRegistry) (n : String) (ref : ActorSt)
    (hinv : InverseMaps r) (h1 : alookup r.nameToActor n = none)
    (h2 : alookup r.actorToName ref.id = none) :
    InverseMaps
      { nameToActor := aset r.nameToActor n ref
        actorToName := aset r.actorToName ref.id n } := by
  obtain ⟨hi1, hi2⟩ := hinv
  constructor
  · intro n' ref' hl
    simp only at hl ⊢
    by_cases hn : n' = n
    · subst hn
      rw [alookup_aset_self] at hl
      cases hl
      rw [alookup_aset_self]
    · rw [alookup_aset_ne _ _ _ _ hn] at hl
      have hold := hi1 n' ref' hl
      have hne : ¬ ref'.id = ref.id := by
        intro he
        rw [he, h2] at hold
        cases hold
      rw [alookup_aset_ne _ _ _ _ hne]
      exact hold
  · intro i n' hl
    simp only at hl ⊢
    by_cases hid : i = ref.id
    · subst hid
      rw [alookup_aset_self] at hl
      cases hl
      exact ⟨ref, alookup_aset_self _ _ _, rfl⟩
    · rw [alookup_aset_ne _ _ _ _ hid] at hl
      obtain ⟨ref'', hr1, hr2⟩ := hi2 i n' hl
      have hne : ¬ n' = n := by
        intro he
        rw [he, h1] at hr1
        cases hr1
      rw [alookup_aset_ne _ _ _ _ hne]
      exact ⟨ref'', hr1, hr2⟩

theorem unregister_pair_inverse (r : NamedRegistry) (nm : String)
    (ref0 : ActorSt) (hinv : InverseMaps r)
    (hl0 : alookup r.nameToActor nm = some ref0) :
    InverseMaps
      { nameToActor := aerase r.nameToActor nm
        actorToName := aerase r.actorToName ref0.id } := by
  obtain ⟨hi1, hi2⟩ := hinv
  have hb0 : alookup r.actorToName ref0.id = some nm := hi1 nm ref0 hl0
  constructor
  · intro n' ref' hl
    simp only at hl ⊢
    by_cases hn : n' = nm
    · subst hn
      rw [alookup_aerase_self] at hl
      cases hl
    · rw [alookup_aerase_ne _ _ _ hn] at hl
      have hold := hi1 n' ref' hl
      have hne : ¬ ref'.id = ref0.id := by
        intro he
        rw [he, hb0] at hold
        cases hold
        exact hn rfl
      rw [alookup_aerase_ne _ _ _ hne]
      exact hold
  · intro i n' hl
    simp only at hl ⊢
    by_cases hid : i = ref0.id
    · subst hid
      rw [alookup_aerase_self] at hl
      cases hl
    · rw [alookup_aerase_ne _ _ _ hid] at hl
      obtain ⟨ref'', hr1, hr2⟩ := hi2 i n' hl
      have hne : ¬ n' = nm := by
        intro he
        rw [he, hl0] at hr1
        cases hr1
        exact hid hr2.symm
      rw [alookup_aerase_ne _ _ _ hne]
      exact ⟨ref'', hr1, hr2⟩

theorem applyRegOp_inverse (r : NamedRegistry) (op : RegOp)
    (hinv : InverseMaps r) : InverseMaps (applyRegOp r op) := by
  cases op with
  | registerOp n ref =>
    dsimp only [applyRegOp]
    unfold NamedRegistry.register
    by_cases h1 : (alookup r.nameToActor n).isSome
    · rw [if_pos h1]
      exact hinv
    · rw [if_neg h1]
      by_cases h2 : (alookup r.actorToName ref.id).isSome
      · rw [if_pos h2]
        exact hinv
      · rw [if_neg h2]
        exact register_inverse r n ref hinv
          (Option.not_isSome_iff_eq_none.mp h1)
          (Option.not_isSome_iff_eq_none.mp h2)
  | unregisterOp n =>
    dsimp only [applyRegOp]
    unfold NamedRegistry.unregister
    rcases hl : alookup r.nameToActor n with _ | ref0
    · exact hinv
    · exact unregister_pair_inverse r n ref0 hinv hl
  | unregisterActorOp aid =>
    dsimp only [applyRegOp]
    unfold NamedRegistry.unregisterActor
    rcases hl : alookup r.actorToName aid with _ | nm0
    · exact hinv
    · obtain ⟨ref0, hr1, hr2⟩ := hinv.2 aid nm0 hl
      have hres : InverseMaps
          { nameToActor := aerase r.nameToActor nm0
            actorToName := aerase r.actorToName ref0.id } :=
        unregister_pair_inverse r nm0 ref0 hinv hr1
      rw [hr2] at hres
      exact hres

theorem runReg_inverse (ops : List RegOp) :
    ∀ r, InverseMaps r → InverseMaps (runReg r ops) := by
  induction ops with
  | nil => intro r h; exact h
  | cons op ops ih =>
    intro r h
    exact ih (applyRegOp r op) (applyRegOp_inverse r op h)

/-! ### Claim C8 -/

/-- C8: Register fails when the name is taken or the actor already has
a name and succeeds otherwise; after a successful registration Lookup
returns the ref, after a subsequent Unregister it returns none; and the
name-to-id and id-to-name maps stay mutually inverse along every
operation sequence from the fresh registry. -/
theorem claim_C8_named_registry (r : NamedRegistry) (n : String)
    (ref : ActorSt) (ops : List RegOp) :
    (((alookup r.nameToActor n).isSome ∨
        (alookup r.actorToName ref.id).isSome) →
      ∃ e, r.register n ref = .error e) ∧
    (alookup r.nameToActor n = none →
      alookup r.actorToName ref.id = none →
      ∃ r', r.register n ref = .ok r') ∧
    (∀ r', r.register n ref = .ok r' → r'.lookup n = some ref) ∧
    (∀ r', r.register n ref = .ok r' →
      ((r'.unregister n).2).lookup n = none) ∧
    InverseMaps (runReg newNamedRegistry ops) := by
  refine ⟨?_, ?_, ?_, ?_, runReg_inverse ops newNamedRegistry inverse_empty⟩
  · intro h
    unfold NamedRegistry.register
    by_cases h1 : (alookup r.nameToActor n).isSome
    · rw [if_pos h1]
      exact ⟨.nameAlreadyRegistered, rfl⟩
    · rw [if_neg h1]
      rcases h with h | h
      · exact absurd h h1
      · rw [if_pos h]
        exact ⟨.actorAlreadyNamed, rfl⟩
  · intro h1 h2
    unfold NamedRegistry.register
    rw [if_neg (by simp [h1]), if_neg (by simp [h2])]
    exact ⟨_, rfl⟩
  · intro r' h
    unfold NamedRegistry.register at h
    by_cases h1 : (alookup r.nameToActor n).isSome
    · rw [if_pos h1] at h
      cases h
    · rw [if_neg h1] at h
      by_cases h2 : (alookup r.actorToName ref.id).isSome
      · rw [if_pos h2] at h
        cases h
      · rw [if_neg h2] at h
        injection h with h3
        rw [← h3]
        unfold NamedRegistry.lookup
        exact alookup_aset_self _ _ _
  · intro r' h
    unfold NamedRegistry.register at h
    by_cases h1 : (alookup r.nameToActor n).isSome
    · rw [if_pos h1] at h
      cases h
    · rw [if_neg h1] at h
      by_cases h2 : (alookup r.actorToName ref.id).isSome
      · rw [if_pos h2] at h
        cases h
      · rw [if_neg h2] at h
        injection h with h3
        rw [← h3]
        unfold NamedRegistry.unregister NamedRegistry.lookup
        simp only [alookup_aset_self]
        exact alookup_aerase_self _ _

/-- Witness for C8: registering alice on the empty registry succeeds,
lookup then returns the ref, unregistering then yields none, and the
witness trace keeps the maps inverse. -/
theorem claim_C8_witness :
    (∃ r', newNamedRegistry.register "alice" (newActor "a1") = .ok r') ∧
    (∀ r', newNamedRegistry.register "alice" (newActor "a1") = .ok r' →
      r'.lookup "alice" = some (newActor "a1")) ∧
    InverseMaps (runReg newNamedRegistry witRegOps) :=
  ⟨(claim_C8_named_registry newNamedRegistry "alice" (newActor "a1")
      witRegOps).2.1 rfl rfl,
   fun r' h =>
    (claim_C8_named_registry newNamedRegistry "alice" (newActor "a1")
      witRegOps).2.2.1 r' h,
   (claim_C8_named_registry newNamedRegistry "alice" (newActor "a1")
      witRegOps).2.2.2.2⟩

/-! ### Claim C3 -/

theorem castAddChildRefToSupervisor_none (ref : ActorSt) :
    castAddChildRefToSupervisor ref = none := rfl

/-- C3: SpawnSupervisor can never return a Supervisor handle.  Every
execution path ends in an error, and in particular the intended happy
path (running system, fresh id, running root supervisor) reaches the
`supRef.(supervisor.Supervisor)` assertion on the *ActorRefImpl that
AddChild returned and fails with the cast error. -/
theorem claim_C3_spawn_supervisor_never_ok (sys : SystemSt) (id : String) :
    (∀ h sys', ¬ sys.spawnSupervisor id = .ok (h, sys')) ∧
    (sys.running = true → alookup sys.registry id = none →
      sys.rootSupervisor.status = .running →
      alookup sys.rootSupervisor.children id = none →
      sys.spawnSupervisor id = .error .castToSupervisorFailed) := by
  constructor
  · intro h sys' hcontra
    unfold SystemSt.spawnSupervisor at hcontra
    split at hcontra
    · exact Except.noConfusion hcontra
    · split at hcontra
      · exact Except.noConfusion hcontra
      · dsimp only at hcontra
        split at hcontra
        · exact Except.noConfusion hcontra
        · rw [castAddChildRefToSupervisor_none] at hcontra
          exact Except.noConfusion hcontra
  · intro hrun hfresh hstatus hchild
    unfold SystemSt.spawnSupervisor
    rw [if_neg (by simp [hrun]), if_neg (by simp [hfresh])]
    have hadd : sys.rootSupervisor.addChild
        { id := id, createOk := true, restartType := .permanent } =
        .ok (newActor id,
          { sys.rootSupervisor with
            children := aset sys.rootSupervisor.children id (newActor id)
            childRefs := aset sys.rootSupervisor.childRefs id (newActor id)
            childSpecs := aset sys.rootSupervisor.childSpecs id
              { id := id, createOk := true, restartType := .permanent }
            childOrder := sys.rootSupervisor.childOrder ++ [id] }) := by
      unfold DefaultSupervisor.addChild
      rw [if_neg (by simp [hstatus]), if_neg (by simp [hchild])]
      rfl
    dsimp only
    rw [hadd]
    rfl

/-- Witness for C3: on a fresh actor system with a fresh id the model
returns the cast error, never a Supervisor handle. -/
theorem claim_C3_witness :
    witSystem.spawnSupervisor "sup1" = .error .castToSupervisorFailed :=
  (claim_C3_spawn_supervisor_never_ok witSystem "sup1").2 rfl rfl rfl rfl

/-! ### Claim C1 -/

/-- C1: evaluation at the failing input.  Stop on a supervisor with two
running children transitions through Stopping to Stopped and stops the
supervisor's own actor, and a second Stop is a no-op — but no child is
stopped or removed, because every RemoveChild call made by Stop is
rejected with SupervisorStopped once the status is Stopping: both
children are still present and still running after Stop returns. -/
theorem claim_C1_stop_leaves_children_running :
    supABStopped.status = .stopped ∧
    supABStopped.selfActor.stopped = true ∧
    alookup supABStopped.children "a" = some { id := "a", stopped := false } ∧
    alookup supABStopped.children "b" = some { id := "b", stopped := false } ∧
    supABStopped.childOrder = ["a", "b"] ∧
    supABStopped.children = supAB.children ∧
    supABStopped.removeChild "a" = .error .supervisorStopped ∧
    supABStopped.stopSup = (supABStopped, none) := by
  refine ⟨?_, ?_, ?_, ?_, ?_, ?_, ?_, ?_⟩
  · decide
  · decide
  · decide
  · decide
  · decide
  · decide
  · rfl
  · decide

/-! ### Claim C5 -/

theorem findPos_drop_eq_suffixFrom (order : List String)
    (childID : String) :
    (match findPos order childID with
      | some pos => order.drop pos
      | none => []) = suffixFrom order childID := by
  induction order with
  | nil => rfl
  | cons x xs ih =>
    by_cases h : x = childID
    · simp [findPos, suffixFrom, h]
    · simp only [findPos, suffixFrom, if_neg h]
      rcases hf : findPos xs childID with _ | pos
      · rw [hf] at ih
        simpa [hf] using ih
      · rw [hf] at ih
        simpa [hf] using ih

/-- C5 counterexample: with strategy OneForAll and ordered children
[a, b], HandleFailure for child a returns the empty list, not the
supervisor's full ordered child list as the claim states. -/
theorem claim_C5_counterexample :
    (supOneForAll.strategy.handleFailure "a" 10).1.1 = [] ∧
    supOneForAll.childOrder = ["a", "b"] ∧
    ¬ (supOneForAll.strategy.handleFailure "a" 10).1.1 =
      supOneForAll.childOrder := by
  refine ⟨?_, ?_, ?_⟩
  · decide
  · decide
  · decide

/-- C5 amended: HandleFailure itself returns [child_id] for OneForOne
and the empty list (with a nil error) for OneForAll and RestForOne; the
supervisor's fallback in handleChildFailure then expands the empty list,
so the restart set actually applied is [child_id] for OneForOne, the
full ordered child list for OneForAll, and the suffix of the ordered
child list starting at child_id for RestForOne. -/
theorem claim_C5_restart_set_amended (s : Strategy) (childID : String)
    (now : Int) (order : List String) :
    ((s.handleFailure childID now).1.2 = none) ∧
    (s.strategyType = .oneForOne →
      (s.handleFailure childID now).1.1 = [childID] ∧
      fallbackRestartSet s.strategyType order childID
        (s.handleFailure childID now).1.1 = [childID]) ∧
    (s.strategyType = .oneForAll →
      (s.handleFailure childID now).1.1 = [] ∧
      fallbackRestartSet s.strategyType order childID
        (s.handleFailure childID now).1.1 = order) ∧
    (s.strategyType = .restForOne →
      (s.handleFailure childID now).1.1 = [] ∧
      fallbackRestartSet s.strategyType order childID
        (s.handleFailure childID now).1.1 = suffixFrom order childID) := by
  refine ⟨?_, ?_, ?_, ?_⟩
  · unfold Strategy.handleFailure
    cases hs : s.strategyType <;> simp [hs]
  · intro hs
    unfold Strategy.handleFailure
    simp [hs, fallbackRestartSet]
  · intro hs
    unfold Strategy.handleFailure
    simp [hs, fallbackRestartSet]
  · intro hs
    unfold Strategy.handleFailure
    simp only [hs]
    constructor
    · trivial
    · simp only [fallbackRestartSet, hs]
      simpa using findPos_drop_eq_suffixFrom order childID

/-- Witness for C5: the RestForOne fixture strategy returns the empty
list for child b, and the fallback expands it to the suffix of
[a, b, c] starting at b. -/
theorem claim_C5_witness :
    (witStrategyRestForOne.handleFailure "b" 0).1.1 = [] ∧
    fallbackRestartSet witStrategyRestForOne.strategyType
      ["a", "b", "c"] "b"
      (witStrategyRestForOne.handleFailure "b" 0).1.1 =
      suffixFrom ["a", "b", "c"] "b" :=
  (claim_C5_restart_set_amended witStrategyRestForOne "b" 0
    ["a", "b", "c"]).2.2.2 rfl

/-! ### Further Go-map lemmas for the supervisor invariants -/

theorem mem_keysOf_aset_of_mem {α : Type} (m : List (String × α))
    (k k' : String) (v : α) (h : k ∈ keysOf m) :
    k ∈ keysOf (aset m k' v) := by
  rw [keysOf_aset]
  split
  · exact h
  · exact List.mem_append_left _ h

theorem self_mem_keysOf_aset {α : Type} (m : List (String × α))
    (k : String) (v : α) : k ∈ keysOf (aset m k v) := by
  rw [keysOf_aset]
  split
  · assumption
  · exact List.mem_append_right _ (List.mem_singleton.mpr rfl)

theorem mem_of_mem_keysOf_aset {α : Type} (m : List (String × α))
    (k k' : String) (v : α) (h : k ∈ keysOf (aset m k' v)) :
    k ∈ keysOf m ∨ k = k' := by
  rw [keysOf_aset] at h
  split at h
  · exact Or.inl h
  · rcases List.mem_append.mp h with h | h
    · exact Or.inl h
    · exact Or.inr (List.mem_singleton.mp h)

theorem keysOf_aset_of_mem {α : Type} (m : List (String × α))
    (k : String) (v : α) (h : k ∈ keysOf m) :
    keysOf (aset m k v) = keysOf m := by
  rw [keysOf_aset, if_pos h]

theorem keysOf_aset_of_not_mem {α : Type} (m : List (String × α))
    (k : String) (v : α) (h : ¬ k ∈ keysOf m) :
    keysOf (aset m k v) = keysOf m ++ [k] := by
  rw [keysOf_aset, if_neg h]

theorem mem_keysOf_aerase {α : Type} (m : List (String × α))
    (k k' : String) :
    k ∈ keysOf (aerase m k') ↔ k ∈ keysOf m ∧ ¬ k = k' := by
  rw [keysOf_aerase]
  simp [List.mem_filter]

theorem alookup_mem {α : Type} (m : List (String × α)) (k : String)
    (v : α) (h : alookup m k = some v) : (k, v) ∈ m := by
  induction m with
  | nil => cases h
  | cons p m ih =>
    by_cases hp : p.1 = k
    · simp only [alookup, if_pos hp] at h
      cases h
      have hp2 : p = (k, p.2) := by
        obtain ⟨a, b⟩ := p
        simp only at hp
        rw [hp]
      rw [← hp2]
      exact List.mem_cons_self _ _
    · simp only [alookup, if_neg hp] at h
      exact List.mem_cons_of_mem _ (ih h)

theorem mem_aset {α : Type} (m : List (String × α)) (k : String) (v : α)
    (p : String × α) (h : p ∈ aset m k v) : p ∈ m ∨ p = (k, v) := by
  induction m with
  | nil =>
    simp [aset] at h
    exact Or.inr h
  | cons q m ih =>
    by_cases hq : q.1 = k
    · simp only [aset, if_pos hq, List.mem_cons] at h
      rcases h with h | h
      · exact Or.inr h
      · exact Or.inl (List.mem_cons_of_mem _ h)
    · simp only [aset, if_neg hq, List.mem_cons] at h
      rcases h with h | h
      · exact Or.inl (by rw [h]; exact List.mem_cons_self _ _)
      · rcases ih h with h' | h'
        · exact Or.inl (List.mem_cons_of_mem _ h')
        · exact Or.inr h'

/-! ### Transport and control-flow lemmas for the supervisor -/

theorem weakSupInv_of_mapsEq (t s : DefaultSupervisor) (hm : MapsEq t s)
    (h : WeakSupInv s) : WeakSupInv t := by
  obtain ⟨hc, hr, hs, ho⟩ := hm
  unfold WeakSupInv at h ⊢
  rw [hc, hr, hs, ho]
  exact h

theorem fullSupInv_of_mapsEq (t s : DefaultSupervisor) (hm : MapsEq t s)
    (h : FullSupInv s) : FullSupInv t := by
  obtain ⟨hc, hr, hs, ho⟩ := hm
  unfold FullSupInv at h ⊢
  rw [hc, hr, hs, ho]
  exact h

theorem allPermanent_of_mapsEq (t s : DefaultSupervisor) (hm : MapsEq t s)
    (h : AllPermanent s) : AllPermanent t := by
  unfold AllPermanent at h ⊢
  rw [hm.2.2.1]
  exact h

theorem maxRestartsGate_exit_maps (s : DefaultSupervisor)
    (now jitter : Int) (res : Option GoErr) (t : DefaultSupervisor)
    (h : maxRestartsGate s now jitter = .exit res t) : MapsEq t s := by
  unfold maxRestartsGate at h
  split at h
  · dsimp only at h
    split at h
    · split at h
      · injection h with h1 h2
        rw [← h2]
        exact ⟨rfl, rfl, rfl, rfl⟩
      · split at h
        · injection h with h1 h2
          rw [← h2]
          exact ⟨rfl, rfl, rfl, rfl⟩
        · cases h
    · cases h
  · cases h

theorem maxRestartsGate_proceed_maps (s : DefaultSupervisor)
    (now jitter : Int) (t : DefaultSupervisor)
    (h : maxRestartsGate s now jitter = .proceed t) : MapsEq t s := by
  unfold maxRestartsGate at h
  split at h
  · dsimp only at h
    split at h
    · split at h
      · cases h
      · split at h
        · cases h
        · injection h with h1
          rw [← h1]
          exact ⟨rfl, rfl, rfl, rfl⟩
    · injection h with h1
      rw [← h1]
      exact ⟨rfl, rfl, rfl, rfl⟩
  · injection h with h1
    rw [← h1]
    exact ⟨rfl, rfl, rfl, rfl⟩

theorem stopSup_foldl_stopping (ids : List String) :
    ∀ t : DefaultSupervisor, t.status = .stopping →
      ids.foldl
        (fun acc id =>
          match acc.removeChild id with
          | .ok s' => s'
          | .error _ => acc) t = t := by
  induction ids with
  | nil => intro t _; rfl
  | cons i ids ih =>
    intro t ht
    have hrem : t.removeChild i = .error .supervisorStopped := by
      unfold DefaultSupervisor.removeChild
      rw [if_pos (by rw [ht]; intro hh; cases hh)]
    simp only [List.foldl_cons, hrem]
    exact ih t ht

theorem stopSup_maps (s : DefaultSupervisor) : MapsEq (s.stopSup).1 s := by
  unfold DefaultSupervisor.stopSup
  by_cases h : s.status = .stopped
  · rw [if_pos h]
    exact ⟨rfl, rfl, rfl, rfl⟩
  · rw [if_neg h]
    dsimp only
    rw [stopSup_foldl_stopping _ _ rfl]
    exact ⟨rfl, rfl, rfl, rfl⟩

theorem strategy_handleFailure_err_none (s : Strategy) (c : String)
    (now : Int) : (s.handleFailure c now).1.2 = none := by
  unfold Strategy.handleFailure
  cases hs : s.strategyType <;> simp [hs]

/-! ### Weak key-set invariant preservation -/

theorem addChild_ok_weakInv (s : DefaultSupervisor) (spec : ChildSpec)
    (p : ActorSt × DefaultSupervisor) (hok : s.addChild spec = .ok p)
    (h : WeakSupInv s) : WeakSupInv p.2 := by
  unfold DefaultSupervisor.addChild at hok
  split at hok
  · cases hok
  · split at hok
    · cases hok
    next hfresh =>
      split at hok
      · cases hok
      next child hcreate =>
        injection hok with h1
        rw [← h1]
        dsimp only
        obtain ⟨hw1, hw2, hw3⟩ := h
        have hnm : ¬ spec.id ∈ keysOf s.children := by
          intro hmem
          exact hfresh ((alookup_isSome_iff _ _).mpr hmem)
        have hnmr : ¬ spec.id ∈ keysOf s.childRefs := by
          rw [← hw1]; exact hnm
        refine ⟨?_, ?_, ?_⟩
        · rw [keysOf_aset_of_not_mem _ _ _ hnm,
            keysOf_aset_of_not_mem _ _ _ hnmr, hw1]
        · intro k hk
          rw [keysOf_aset_of_not_mem _ _ _ hnm] at hk
          rcases List.mem_append.mp hk with hk | hk
          · exact mem_keysOf_aset_of_mem _ _ _ _ (hw2 k hk)
          · rw [List.mem_singleton.mp hk]
            exact self_mem_keysOf_aset _ _ _
        · intro k hk
          rcases mem_of_mem_keysOf_aset _ _ _ _ hk with hk | hk
          · exact List.mem_append_left _ (hw3 k hk)
          · rw [hk]
            exact List.mem_append_right _ (List.mem_singleton.mpr rfl)

theorem removeChild_ok_weakInv (s : DefaultSupervisor) (rid : String)
    (t : DefaultSupervisor) (hok : s.removeChild rid = .ok t)
    (h : WeakSupInv s) : WeakSupInv t := by
  unfold DefaultSupervisor.removeChild at hok
  split at hok
  · cases hok
  · split at hok
    · cases hok
    · injection hok with h1
      rw [← h1]
      obtain ⟨hw1, hw2, hw3⟩ := h
      refine ⟨?_, ?_, ?_⟩
      · dsimp only
        rw [keysOf_aerase, keysOf_aerase, hw1]
      · intro k hk
        dsimp only at hk ⊢
        rw [mem_keysOf_aerase] at hk
        rw [mem_keysOf_aerase]
        exact ⟨hw2 k hk.1, hk.2⟩
      · intro k hk
        dsimp only at hk ⊢
        rw [mem_keysOf_aerase] at hk
        rw [mem_removeFirst_of_ne _ _ _ hk.2]
        exact hw3 k hk.1

theorem dropChild_weakInv (s : DefaultSupervisor) (cid : String)
    (h : WeakSupInv s) : WeakSupInv (s.dropChild cid) := by
  obtain ⟨hw1, hw2, hw3⟩ := h
  unfold DefaultSupervisor.dropChild
  refine ⟨?_, ?_, ?_⟩
  · dsimp only
    rw [keysOf_aerase, keysOf_aerase, hw1]
  · intro k hk
    dsimp only at hk ⊢
    rw [mem_keysOf_aerase] at hk
    exact hw2 k hk.1
  · exact hw3

theorem restartOne_weakInv (s : DefaultSupervisor) (rid : String)
    (h : WeakSupInv s) : WeakSupInv (s.restartOne rid) := by
  unfold DefaultSupervisor.restartOne
  rcases hspec : alookup s.childSpecs rid with _ | spec
  · exact h
  · dsimp only
    have hmemspec : rid ∈ keysOf s.childSpecs :=
      (alookup_isSome_iff _ _).mp (by rw [hspec]; rfl)
    obtain ⟨hw1, hw2, hw3⟩ := h
    rcases hc : alookup s.children rid with _ | c
    · dsimp only
      rcases hcr : spec.create with _ | nc
      · exact ⟨hw1, hw2, hw3⟩
      · have hnm : ¬ rid ∈ keysOf s.children :=
          (alookup_eq_none_iff _ _).mp hc
        have hnmr : ¬ rid ∈ keysOf s.childRefs := by
          rw [← hw1]; exact hnm
        refine ⟨?_, ?_, ?_⟩
        · dsimp only
          rw [keysOf_aset_of_not_mem _ _ _ hnm,
            keysOf_aset_of_not_mem _ _ _ hnmr, hw1]
        · intro k hk
          dsimp only at hk
          rcases mem_of_mem_keysOf_aset _ _ _ _ hk with hk | hk
          · exact hw2 k hk
          · rw [hk]
            exact hmemspec
        · exact hw3
    · have hmemc : rid ∈ keysOf s.children :=
        (alookup_isSome_iff _ _).mp (by rw [hc]; rfl)
      have hmemr : rid ∈ keysOf s.childRefs := by
        rw [← hw1]; exact hmemc
      have hrsome : (alookup s.childRefs rid).isSome = true :=
        (alookup_isSome_iff _ _).mpr hmemr
      dsimp only
      rw [if_pos hrsome]
      have hk1 : keysOf (aset s.children rid (defaultActorStop c).1) =
          keysOf s.children := keysOf_aset_of_mem _ _ _ hmemc
      have hk2 : keysOf (aset s.childRefs rid (defaultActorStop c).1) =
          keysOf s.childRefs := keysOf_aset_of_mem _ _ _ hmemr
      rcases hcr : spec.create with _ | nc
      · dsimp only
        refine ⟨?_, ?_, ?_⟩
        · rw [hk1, hk2, hw1]
        · intro k hk
          rw [hk1] at hk
          exact hw2 k hk
        · exact hw3
      · dsimp only
        have hm1 : rid ∈ keysOf (aset s.children rid (defaultActorStop c).1) := by
          rw [hk1]; exact hmemc
        have hm2 : rid ∈ keysOf (aset s.childRefs rid (defaultActorStop c).1) := by
          rw [hk2]; exact hmemr
        refine ⟨?_, ?_, ?_⟩
        · rw [keysOf_aset_of_mem _ _ _ hm1, keysOf_aset_of_mem _ _ _ hm2,
            hk1, hk2, hw1]
        · intro k hk
          rw [keysOf_aset_of_mem _ _ _ hm1, hk1] at hk
          exact hw2 k hk
        · exact hw3

theorem restartChildren_weakInv (ids : List String) :
    ∀ s : DefaultSupervisor, WeakSupInv s →
      WeakSupInv (s.restartChildren ids) := by
  induction ids with
  | nil => intro s h; exact h
  | cons i ids ih =>
    intro s h
    unfold DefaultSupervisor.restartChildren at ih ⊢
    rw [List.foldl_cons]
    exact ih _ (restartOne_weakInv s i h)

theorem handleChildFailure_weakInv (s : DefaultSupervisor) (cid : String)
    (err : Option GoErr) (now jitter : Int) (h : WeakSupInv s) :
    WeakSupInv (s.handleChildFailure cid err now jitter).2 := by
  unfold DefaultSupervisor.handleChildFailure
  split
  · exact h
  · dsimp only
    split
    next res t hg =>
      exact weakSupInv_of_mapsEq t _ (maxRestartsGate_exit_maps _ now jitter res t hg) h
    next t hg =>
      have ht : WeakSupInv t :=
        weakSupInv_of_mapsEq t _ (maxRestartsGate_proceed_maps _ now jitter t hg) h
      split
      · exact ht
      · split
        · exact dropChild_weakInv _ cid ht
        · rw [strategy_handleFailure_err_none]
          exact restartChildren_weakInv _ _ ht

theorem applySupOp_weakInv (s : DefaultSupervisor) (op : SupOp)
    (h : WeakSupInv s) : WeakSupInv (applySupOp s op) := by
  cases op with
  | add spec =>
    dsimp only [applySupOp]
    rcases hok : s.addChild spec with e | p
    · exact h
    · exact addChild_ok_weakInv s spec p hok h
  | remove rid =>
    dsimp only [applySupOp]
    rcases hok : s.removeChild rid with e | t
    · exact h
    · exact removeChild_ok_weakInv s rid t hok h
  | fail cid err now jitter =>
    exact handleChildFailure_weakInv s cid err now jitter h
  | stop => exact weakSupInv_of_mapsEq _ _ (stopSup_maps s) h
  | resume => exact h

theorem weakSupInv_newSupervisor (id : String) (strat : Strategy) :
    WeakSupInv (newSupervisor id strat) := by
  refine ⟨rfl, ?_, ?_⟩
  · intro k hk
    cases hk
  · intro k hk
    cases hk

theorem runSup_weakInv (ops : List SupOp) :
    ∀ s : DefaultSupervisor, WeakSupInv s → WeakSupInv (runSup s ops) := by
  induction ops with
  | nil => intro s h; exact h
  | cons op ops ih =>
    intro s h
    exact ih _ (applySupOp_weakInv s op h)

/-! ### Full key-set invariant preservation (Permanent-only traces) -/

theorem addChild_ok_fullInv (s : DefaultSupervisor) (spec : ChildSpec)
    (p : ActorSt × DefaultSupervisor) (hok : s.addChild spec = .ok p)
    (h : FullSupInv s) (hp : AllPermanent s)
    (hperm : spec.restartType = .permanent) :
    FullSupInv p.2 ∧ AllPermanent p.2 := by
  obtain ⟨hf1, hf2, hf3, hf4⟩ := h
  unfold DefaultSupervisor.addChild at hok
  split at hok
  · cases hok
  · split at hok
    · cases hok
    next hfresh =>
      split at hok
      · cases hok
      next child hcreate =>
        injection hok with h1
        rw [← h1]
        dsimp only
        have hnm : ¬ spec.id ∈ keysOf s.children := by
          intro hmem
          exact hfresh ((alookup_isSome_iff _ _).mpr hmem)
        have hnmr : ¬ spec.id ∈ keysOf s.childRefs := by
          rw [← hf1]; exact hnm
        have hnms : ¬ spec.id ∈ keysOf s.childSpecs := by
          rw [← hf2]; exact hnm
        have hnmo : ¬ spec.id ∈ s.childOrder := by
          rw [← hf3]; exact hnms
        constructor
        · refine ⟨?_, ?_, ?_, ?_⟩
          · rw [keysOf_aset_of_not_mem _ _ _ hnm,
              keysOf_aset_of_not_mem _ _ _ hnmr, hf1]
          · rw [keysOf_aset_of_not_mem _ _ _ hnm,
              keysOf_aset_of_not_mem _ _ _ hnms, hf2]
          · rw [keysOf_aset_of_not_mem _ _ _ hnms, hf3]
          · rw [List.nodup_append]
            refine ⟨hf4, List.nodup_singleton _, ?_⟩
            intro a ha hb
            rw [List.mem_singleton] at hb
            rw [hb] at ha
            exact hnmo ha
        · intro q hq
          rcases mem_aset _ _ _ _ hq with hq | hq
          · exact hp q hq
          · rw [hq]
            exact hperm

theorem removeChild_ok_fullInv (s : DefaultSupervisor) (rid : String)
    (t : DefaultSupervisor) (hok : s.removeChild rid = .ok t)
    (h : FullSupInv s) (hp : AllPermanent s) :
    FullSupInv t ∧ AllPermanent t := by
  obtain ⟨hf1, hf2, hf3, hf4⟩ := h
  unfold DefaultSupervisor.removeChild at hok
  split at hok
  · cases hok
  · split at hok
    · cases hok
    · injection hok with h1
      rw [← h1]
      constructor
      · refine ⟨?_, ?_, ?_, ?_⟩
        · dsimp only
          rw [keysOf_aerase, keysOf_aerase, hf1]
        · dsimp only
          rw [keysOf_aerase, keysOf_aerase, hf2]
        · dsimp only
          rw [keysOf_aerase, hf3,
            removeFirst_eq_filter_of_nodup _ _ hf4]
        · dsimp only
          rw [removeFirst_eq_filter_of_nodup _ _ hf4]
          exact List.Nodup.filter _ hf4
      · intro q hq
        dsimp only at hq
        exact hp q (List.mem_of_mem_filter hq)

theorem restartOne_fullInv (s : DefaultSupervisor) (rid : String)
    (h : FullSupInv s) (hp : AllPermanent s) :
    FullSupInv (s.restartOne rid) ∧ AllPermanent (s.restartOne rid) := by
  obtain ⟨hf1, hf2, hf3, hf4⟩ := h
  unfold DefaultSupervisor.restartOne
  rcases hspec : alookup s.childSpecs rid with _ | spec
  · exact ⟨⟨hf1, hf2, hf3, hf4⟩, hp⟩
  · dsimp only
    have hmemspec : rid ∈ keysOf s.childSpecs :=
      (alookup_isSome_iff _ _).mp (by rw [hspec]; rfl)
    have hmemc : rid ∈ keysOf s.children := by
      rw [hf2]; exact hmemspec
    rcases hc : alookup s.children rid with _ | c
    · exact absurd hmemc ((alookup_eq_none_iff _ _).mp hc)
    · have hmemr : rid ∈ keysOf s.childRefs := by
        rw [← hf1]; exact hmemc
      have hrsome : (alookup s.childRefs rid).isSome = true :=
        (alookup_isSome_iff _ _).mpr hmemr
      dsimp only
      rw [if_pos hrsome]
      have hk1 : keysOf (aset s.children rid (defaultActorStop c).1) =
          keysOf s.children := keysOf_aset_of_mem _ _ _ hmemc
      have hk2 : keysOf (aset s.childRefs rid (defaultActorStop c).1) =
          keysOf s.childRefs := keysOf_aset_of_mem _ _ _ hmemr
      rcases hcr : spec.create with _ | nc
      · dsimp only
        exact ⟨⟨by rw [hk1, hk2, hf1], by rw [hk1, hf2], hf3, hf4⟩, hp⟩
      · dsimp only
        have hm1 : rid ∈ keysOf (aset s.children rid (defaultActorStop c).1) := by
          rw [hk1]; exact hmemc
        have hm2 : rid ∈ keysOf (aset s.childRefs rid (defaultActorStop c).1) := by
          rw [hk2]; exact hmemr
        refine ⟨⟨?_, ?_, hf3, hf4⟩, hp⟩
        · rw [keysOf_aset_of_mem _ _ _ hm1, keysOf_aset_of_mem _ _ _ hm2,
            hk1, hk2, hf1]
        · rw [keysOf_aset_of_mem _ _ _ hm1, hk1, hf2]

theorem restartChildren_fullInv (ids : List String) :
    ∀ s : DefaultSupervisor, FullSupInv s → AllPermanent s →
      FullSupInv (s.restartChildren ids) ∧
        AllPermanent (s.restartChildren ids) := by
  induction ids with
  | nil => intro s h hp; exact ⟨h, hp⟩
  | cons i ids ih =>
    intro s h hp
    unfold DefaultSupervisor.restartChildren at ih ⊢
    rw [List.foldl_cons]
    obtain ⟨h', hp'⟩ := restartOne_fullInv s i h hp
    exact ih _ h' hp'

theorem handleChildFailure_fullInv (s : DefaultSupervisor) (cid : String)
    (err : Option GoErr) (now jitter : Int) (h : FullSupInv s)
    (hp : AllPermanent s) :
    FullSupInv (s.handleChildFailure cid err now jitter).2 ∧
      AllPermanent (s.handleChildFailure cid err now jitter).2 := by
  unfold DefaultSupervisor.handleChildFailure
  split
  · exact ⟨h, hp⟩
  · dsimp only
    split
    next res t hg =>
      have hm := maxRestartsGate_exit_maps _ now jitter res t hg
      exact ⟨fullSupInv_of_mapsEq t _ hm h, allPermanent_of_mapsEq t _ hm hp⟩
    next t hg =>
      have hm := maxRestartsGate_proceed_maps _ now jitter t hg
      have ht : FullSupInv t := fullSupInv_of_mapsEq t _ hm h
      have htP : AllPermanent t := allPermanent_of_mapsEq t _ hm hp
      split
      · exact ⟨ht, htP⟩
      · split
        next hsr =>
          have hnospec : alookup t.childSpecs cid = none := by
            rcases hsp : alookup t.childSpecs cid with _ | sp
            · rfl
            · exfalso
              apply hsr
              have hperm : sp.restartType = .permanent :=
                htP (cid, sp) (alookup_mem _ _ _ hsp)
              simp [DefaultSupervisor.shouldRestart, hsp, hperm]
          have hnm : ¬ cid ∈ keysOf t.children := by
            rw [ht.2.1]
            exact (alookup_eq_none_iff _ _).mp hnospec
          have hnmr : ¬ cid ∈ keysOf t.childRefs := by
            rw [← ht.1]
            exact hnm
          unfold DefaultSupervisor.dropChild
          rw [aerase_of_not_mem _ _ hnm, aerase_of_not_mem _ _ hnmr]
          exact ⟨ht, htP⟩
        · rw [strategy_handleFailure_err_none]
          exact restartChildren_fullInv _ _ ht htP

theorem applySupOp_fullInv (s : DefaultSupervisor) (op : SupOp)
    (h : FullSupInv s) (hp : AllPermanent s)
    (hop : ∀ spec, op = .add spec → spec.restartType = .permanent) :
    FullSupInv (applySupOp s op) ∧ AllPermanent (applySupOp s op) := by
  cases op with
  | add spec =>
    dsimp only [applySupOp]
    rcases hok : s.addChild spec with e | p
    · exact ⟨h, hp⟩
    · exact addChild_ok_fullInv s spec p hok h hp (hop spec rfl)
  | remove rid =>
    dsimp only [applySupOp]
    rcases hok : s.removeChild rid with e | t
    · exact ⟨h, hp⟩
    · exact removeChild_ok_fullInv s rid t hok h hp
  | fail cid err now jitter =>
    exact handleChildFailure_fullInv s cid err now jitter h hp
  | stop =>
    have hm := stopSup_maps s
    exact ⟨fullSupInv_of_mapsEq _ _ hm h, allPermanent_of_mapsEq _ _ hm hp⟩
  | resume => exact ⟨h, hp⟩

theorem runSup_fullInv (ops : List SupOp) :
    ∀ s : DefaultSupervisor, FullSupInv s → AllPermanent s →
      PermanentOnly ops = true →
      FullSupInv (runSup s ops) ∧ AllPermanent (runSup s ops) := by
  induction ops with
  | nil => intro s h hp _; exact ⟨h, hp⟩
  | cons op ops ih =>
    intro s h hp hpo
    cases op with
    | add spec =>
      have hpo' : (spec.restartType = RestartType.permanent : Bool) = true ∧
          PermanentOnly ops = true := by
        simpa [PermanentOnly] using hpo
      obtain ⟨h', hp'⟩ := applySupOp_fullInv s (.add spec) h hp
        (by intro sp hsp; injection hsp with hsp; rw [← hsp]
            exact of_decide_eq_true hpo'.1)
      exact ih _ h' hp' hpo'.2
    | remove rid =>
      obtain ⟨h', hp'⟩ := applySupOp_fullInv s (.remove rid) h hp
        (by intro sp hsp; cases hsp)
      exact ih _ h' hp' (by simpa [PermanentOnly] using hpo)
    | fail cid err now jitter =>
      obtain ⟨h', hp'⟩ := applySupOp_fullInv s (.fail cid err now jitter) h hp
        (by intro sp hsp; cases hsp)
      exact ih _ h' hp' (by simpa [PermanentOnly] using hpo)
    | stop =>
      obtain ⟨h', hp'⟩ := applySupOp_fullInv s .stop h hp
        (by intro sp hsp; cases hsp)
      exact ih _ h' hp' (by simpa [PermanentOnly] using hpo)
    | resume =>
      obtain ⟨h', hp'⟩ := applySupOp_fullInv s .resume h hp
        (by intro sp hsp; cases hsp)
      exact ih _ h' hp' (by simpa [PermanentOnly] using hpo)

theorem fullSupInv_newSupervisor (id : String) (strat : Strategy) :
    FullSupInv (newSupervisor id strat) :=
  ⟨rfl, rfl, rfl, List.nodup_nil⟩

theorem allPermanent_newSupervisor (id : String) (strat : Strategy) :
    AllPermanent (newSupervisor id strat) := by
  intro p hp
  cases hp

/-! ### Claim C2 -/

/-- C2 counterexample: a supervisor with one Temporary child t whose
failure was handled (the no-restart drop ran) has empty `children` and
`childRefs` but still holds t in `childSpecs` and `childOrder`, so the
four key sets are not identical. -/
theorem claim_C2_counterexample :
    keysOf supTDropped.children = [] ∧
    keysOf supTDropped.childRefs = [] ∧
    keysOf supTDropped.childSpecs = ["t"] ∧
    supTDropped.childOrder = ["t"] ∧
    ¬ keysOf supTDropped.children = keysOf supTDropped.childSpecs := by
  refine ⟨?_, ?_, ?_, ?_, ?_⟩
  · decide
  · decide
  · decide
  · decide
  · decide

/-- C2 amended: along every operation sequence from a fresh supervisor,
`children` and `childRefs` always share their key set, which is
contained in the key set of `childSpecs`, itself contained in
`child_order`; the full four-way identity
dom(children) = dom(refs) = dom(specs) = set(child_order) holds whenever
every child added along the trace is Permanent, but a Temporary (or
Transient-without-error) no-restart drop removes the id from `children`
and `childRefs` only, leaving it in `childSpecs` and `child_order`. -/
theorem claim_C2_key_sets_amended (id : String) (strat : Strategy)
    (ops : List SupOp) :
    WeakSupInv (runSup (newSupervisor id strat) ops) ∧
    (PermanentOnly ops = true →
      FullSupInv (runSup (newSupervisor id strat) ops)) := by
  constructor
  · exact runSup_weakInv ops _ (weakSupInv_newSupervisor id strat)
  · intro hpo
    exact (runSup_fullInv ops _ (fullSupInv_newSupervisor id strat)
      (allPermanent_newSupervisor id strat) hpo).1

/-- Witness for C2: the Permanent-only fixture trace (add, fail with
restart, add, remove, stop) keeps the four key sets identical. -/
theorem claim_C2_witness :
    PermanentOnly witPermOps = true ∧
    FullSupInv (runSup (newSupervisor "w" fixtureStrategy) witPermOps) :=
  ⟨by decide,
   (claim_C2_key_sets_amended "w" fixtureStrategy witPermOps).2 (by decide)⟩

end Gorilix
